import Mathlib

/-!
Verification of the request-execution and streaming layer of a Rust HTTP/SSE
client library for a generative-message API.

Modelling conventions, used throughout:
* Rust `&str` / `String` values that the code inspects character by character
  are modelled as `List Char` (abbreviated `Str`); `String` is used where the
  source only concatenates/compares whole strings (header values, tokens).
* Rust machine integers are modelled as `Nat`, with an explicit reduction
  modulo `2 ^ 64` at the one place where the source's `u64` arithmetic can
  wrap (the backoff multiplication in `RetryPolicy::delay_for_attempt`;
  release builds wrap, debug builds panic there).
* `std::time::Duration` values are modelled in whole milliseconds, which is
  the granularity the retry code computes with (`as_millis`, `from_millis`).
* Randomness (`rand::rng().random_range(0..=cap/4)`) is modelled by passing
  the sampled jitter as an explicit argument; theorems quantify over every
  sample in the range the source draws from.
* Fallible Rust functions returning `Result<_, Error>` are modelled with
  `Except Str _` (error payloads are the format strings of the source, with
  the dynamic parts of `format!` interpolations concatenated or elided).
-/

/-- Rust string slices, modelled as lists of characters. -/
abbrev Str := List Char

/-- The u64 modulus; Rust `u64` arithmetic in release builds wraps modulo this. -/
def U64_MOD : Nat := 2 ^ 64

/-! ## Retry policy (src/retry.rs) -/

/-- Model of `RetryPolicy` (src/retry.rs). Durations are in milliseconds:
`initial_delay` is `initial_delay.as_millis() as u64`, `max_delay` is
`max_delay.as_millis() as u64`. -/
structure RetryPolicy where
  max_retries : Nat
  initial_delay : Nat
  max_delay : Nat
deriving DecidableEq, Repr

/-- Model of `RetryPolicy::default()`: 2 retries, 500 ms initial delay, 8 s cap. -/
def RetryPolicy.default : RetryPolicy :=
  { max_retries := 2, initial_delay := 500, max_delay := 8000 }

/-- Model of `RetryPolicy::delay_for_attempt` (src/retry.rs lines 34-55).
Returns the delay in milliseconds.  `retry_after` is the parsed server hint in
milliseconds; `jitter` is the value sampled by
`rand::rng().random_range(0..=(capped_ms / 4))` (the source samples it only
when `capped_ms > 0`, and uses 0 otherwise; in both cases the sample lies in
`0..=capped_ms/4`, which theorems take as a hypothesis).
The multiplication `initial_delay_ms * 2u64.saturating_pow(attempt)` is u64
arithmetic: `saturating_pow` saturates at `2^64 - 1` and the product wraps
modulo `2^64` (release semantics; debug builds panic on the overflow). -/
def RetryPolicy.backoff (p : RetryPolicy) (attempt : Nat) (jitter : Nat) : Nat :=
  let delay_ms := p.initial_delay * min (2 ^ attempt) (U64_MOD - 1) % U64_MOD
  let capped_ms := min delay_ms p.max_delay
  capped_ms - jitter

/-- See the doc comment above `RetryPolicy.backoff`: this is the rest of
`delay_for_attempt`, returning a server hint below 60 seconds verbatim and
falling back to the backoff computation otherwise. -/
def RetryPolicy.delay_for_attempt (p : RetryPolicy) (attempt : Nat)
    (retry_after : Option Nat) (jitter : Nat) : Nat :=
  match retry_after with
  | some ra =>
    if ra < 60000 then ra
    else RetryPolicy.backoff p attempt jitter
  | none => RetryPolicy.backoff p attempt jitter

/-- Model of `is_retryable_status` (src/error.rs line 70):
`matches!(status, 408 | 409 | 429) || status >= 500`. -/
def is_retryable_status (status : Nat) : Bool :=
  status = 408 || status = 409 || status = 429 || 500 ≤ status

/-! ## Response headers and the x-should-retry override (src/retry.rs, src/client.rs) -/

/-- A raw header value: a byte sequence, as stored by the http crate's
`HeaderValue`. -/
abbrev HeaderBytes := List Nat

/-- A header map, as a list of (lower-case name, raw value) pairs;
`HeaderMap::get` returns the first value for a name. -/
abbrev Headers := List (String × HeaderBytes)

/-- Model of `HeaderMap::get`: first value stored under the name. -/
def headersGet (hs : Headers) (name : String) : Option HeaderBytes :=
  (hs.find? (fun p => p.1 = name)).map (fun p => p.2)

/-- Model of `HeaderValue::to_str` from the http crate: succeeds iff every
byte is visible ASCII (0x20 to 0x7E) or horizontal tab. -/
def headerValueToStr (v : HeaderBytes) : Option Str :=
  if v.all (fun b => (32 ≤ b && b ≤ 126) || b = 9) then
    some (v.map Char.ofNat)
  else none

/-- Lower-case an ASCII letter, as Rust's `u8::to_ascii_lowercase`. -/
def asciiLower (c : Char) : Char :=
  if 'A' ≤ c && c ≤ 'Z' then Char.ofNat (c.toNat + 32) else c

/-- Model of Rust's `str::eq_ignore_ascii_case`. -/
def eqIgnoreAsciiCase (a b : Str) : Bool :=
  a.length = b.length && (a.zip b).all (fun p => asciiLower p.1 = asciiLower p.2)

/-- Model of `check_should_retry_header` (src/retry.rs lines 94-98):
present header with a to_str-convertible value yields
`Some(value.eq_ignore_ascii_case("true"))`; otherwise `None`. -/
def check_should_retry_header (hs : Headers) : Option Bool :=
  (headersGet hs "x-should-retry").bind (fun v =>
    (headerValueToStr v).map (fun s => eqIgnoreAsciiCase s "true".data))

/-- An HTTP response as the executor inspects it: status code, headers, body. -/
structure HttpResponse where
  status : Nat
  headers : Headers
  body : Str
deriving DecidableEq, Repr

/-- The terminal error of the executor's error path, modelling
`Error::Api { status, body }` with the raw body (error-body JSON parsing is
orthogonal to the retry decision and not modelled here). -/
structure ApiFailure where
  status : Nat
  body : Str
deriving DecidableEq, Repr

/-- Core of the retry loop of `Client::execute_raw` (src/client.rs lines
124-215) for responses (the transport-error arm is not needed by the claims):
at each attempt the downstream stack yields `responses attempt`; a status
below 400 returns the body; otherwise the response is retried exactly when
`check_should_retry_header(...)` (defaulting to `is_retryable_status`) allows
it and `attempt < max_retries`, else `Error::Api` is returned.  The sleep
between attempts is irrelevant to the result and omitted. -/
def execute_raw_go (responses : Nat → HttpResponse) (max_retries : Nat)
    (attempt : Nat) : Except ApiFailure Str :=
  let r := responses attempt
  if 400 ≤ r.status then
    let retryable := (check_should_retry_header r.headers).getD (is_retryable_status r.status)
    if h : retryable = true ∧ attempt < max_retries then
      execute_raw_go responses max_retries (attempt + 1)
    else
      .error ⟨r.status, r.body⟩
  else
    .ok r.body
termination_by max_retries - attempt
decreasing_by omega

/-- Model of `Client::execute_raw`'s loop, starting from attempt 0. -/
def execute_raw (responses : Nat → HttpResponse) (max_retries : Nat) :
    Except ApiFailure Str :=
  execute_raw_go responses max_retries 0

/-! ## SSE decoder (src/streaming/sse.rs) -/

/-- Model of `RawSseEvent` (src/streaming/sse.rs lines 10-19). -/
structure RawSseEvent where
  event : Option Str
  data : Option Str
  id : Option Str
  retry : Option Nat
deriving DecidableEq, Repr

/-- Model of `RawSseEvent::default()`. -/
def RawSseEvent.empty : RawSseEvent := ⟨none, none, none, none⟩

/-- Split a string at its first colon, as `line.find(':')` plus slicing in
`parse_field`; `none` when the line has no colon. -/
def splitAtColon : Str → Option (Str × Str)
  | [] => none
  | c :: rest =>
    if c = ':' then some ([], rest)
    else (splitAtColon rest).map (fun p => (c :: p.1, p.2))

/-- Strip a single leading space, as `parse_field` does after the colon. -/
def stripOneSpace : Str → Str
  | ' ' :: rest => rest
  | s => s

/-- Model of `parse_field` (src/streaming/sse.rs lines 116-125). -/
def parse_field (line : Str) : Option (Str × Str) :=
  (splitAtColon line).map (fun p => (p.1, stripOneSpace p.2))

/-- Rust ASCII/unicode whitespace trim (`str::trim`), restricted to the ASCII
whitespace that can occur in header/SSE values. -/
def trimStr (s : Str) : Str :=
  ((s.dropWhile Char.isWhitespace).reverse.dropWhile Char.isWhitespace).reverse

/-- Model of `str::parse::<u64>()`: optional leading `+`, then one or more
ASCII digits, value below `2^64`; anything else fails. -/
def parseU64 (s : Str) : Option Nat :=
  let t := match s with
    | '+' :: r => r
    | r => r
  if t ≠ [] && t.all Char.isDigit then
    let n := t.foldl (fun acc c => acc * 10 + (c.toNat - 48)) 0
    if n < U64_MOD then some n else none
  else none

/-- One field line applied to the accumulating event: the `match field`
of `parse_sse_stream` (src/streaming/sse.rs lines 64-90). -/
def sse_apply_field (cur : RawSseEvent) (field value : Str) : RawSseEvent :=
  if field = "event".data then { cur with event := some value }
  else if field = "data".data then
    match cur.data with
    | some existing => { cur with data := some (existing ++ '\n' :: value) }
    | none => { cur with data := some value }
  else if field = "id".data then { cur with id := some value }
  else if field = "retry".data then
    match parseU64 (trimStr value) with
    | some ms => { cur with retry := some ms }
    | none => cur
  else cur

/-- The dispatch guard of the decoder:
`current.event.is_some() || current.data.is_some()`. -/
def sse_pending (cur : RawSseEvent) : Bool :=
  cur.event.isSome || cur.data.isSome

/-- The line-processing state machine of `parse_sse_stream`
(src/streaming/sse.rs lines 41-111), processing the decoded lines in order:
a blank line dispatches the accumulated event when `event` or `data` was set
and resets the accumulator; a line starting with `:` is a comment; a line
with no colon is ignored; a field line updates the accumulator; at end of
input a pending event (event or data set) is dispatched once more. -/
def sse_loop : List Str → RawSseEvent → List RawSseEvent
  | [], cur => if sse_pending cur then [cur] else []
  | line :: rest, cur =>
    if line = [] then
      if sse_pending cur then cur :: sse_loop rest RawSseEvent.empty
      else sse_loop rest cur
    else if line.head? = some ':' then
      sse_loop rest cur
    else
      match parse_field line with
      | some fv => sse_loop rest (sse_apply_field cur fv.1 fv.2)
      | none => sse_loop rest cur

/-- Remove one trailing carriage return, as `tokio`'s `lines()` does on each
newline-terminated line. -/
def stripTrailingCr (l : Str) : Str :=
  if l.getLast? = some '\r' then l.dropLast else l

/-- Reassemble `s.splitOn '\n'` into the lines `AsyncBufReadExt::lines`
yields: every part except the last was newline-terminated (strip a trailing
`\r`); a final empty part is the end of input and yields no line. -/
def linesOfParts : List Str → List Str
  | [] => []
  | [last] => if last = [] then [] else [last]
  | p :: rest => stripTrailingCr p :: linesOfParts rest

/-- Model of splitting the response byte stream into lines
(`BufReader::lines` in `parse_sse_stream`). -/
def splitLines (s : Str) : List Str :=
  linesOfParts (s.splitOn '\n')

/-- Model of `parse_sse_stream` (src/streaming/sse.rs lines 28-111) on a
complete input: the sequence of raw events the returned stream yields.
(The byte-source-error arm produces no events on a fully available input.) -/
def parse_sse_stream (input : Str) : List RawSseEvent :=
  sse_loop (splitLines input) RawSseEvent.empty

/-- The multi-line `data:` join: values joined by a single newline in input
order (the decoder's repeated `existing.push('\n'); existing.push_str(v)`). -/
def joinNl : List Str → Str
  | [] => []
  | [v] => v
  | v :: rest => v ++ '\n' :: joinNl rest

/-! ## JSON values (model of serde_json::Value and serde_json::from_str)

The repository delegates JSON work to the serde_json crate; the fragments of
its behaviour the claims depend on are modelled here.  Numbers keep the
i64/u64-representable case exact (`int`); any other numeric literal is kept
symbolically as mantissa times a power of ten (`float`) — no claim inspects a
float value.  Objects keep their fields in parse order with last-wins
duplicate handling (serde_json's map sorts keys; no claim compares an object
with more than one field). -/

/-- A JSON value. -/
inductive Json where
  | null
  | bool (b : Bool)
  | int (n : Int)
  | float (mantissa : Int) (exp10 : Int)
  | str (s : Str)
  | arr (items : List Json)
  | obj (fields : List (Str × Json))
deriving Repr

/-- Look a key up in a JSON object's field list. -/
def objLookup (fields : List (Str × Json)) (k : Str) : Option Json :=
  (fields.find? (fun p => p.1 = k)).map (fun p => p.2)

/-- Insert into a JSON object's field list, replacing any existing value for
the key in place (as a map insert does). -/
def objInsert (fields : List (Str × Json)) (k : Str) (v : Json) :
    List (Str × Json) :=
  if fields.any (fun p => p.1 = k) then
    fields.map (fun p => if p.1 = k then (k, v) else p)
  else fields ++ [(k, v)]

/-- JSON insignificant whitespace. -/
def jsonSkipWs (s : Str) : Str :=
  s.dropWhile (fun c => c = ' ' || c = '\t' || c = '\n' || c = '\r')

/-- Value of a hexadecimal digit. -/
def hexVal (c : Char) : Option Nat :=
  if '0' ≤ c && c ≤ '9' then some (c.toNat - 48)
  else if 'a' ≤ c && c ≤ 'f' then some (c.toNat - 87)
  else if 'A' ≤ c && c ≤ 'F' then some (c.toNat - 55)
  else none

/-- Parse the body of a JSON string after the opening quote; returns the
decoded content and the input after the closing quote.  Raw control
characters and invalid escapes fail, `\uXXXX` escapes decode with surrogate
pairing, lone surrogates fail — as serde_json's strict string parser. -/
def parseStringBody : Str → Option (Str × Str)
  | [] => none
  | '"' :: rest => some ([], rest)
  | '\\' :: esc =>
    match esc with
    | '"' :: r => (parseStringBody r).map (fun p => ('"' :: p.1, p.2))
    | '\\' :: r => (parseStringBody r).map (fun p => ('\\' :: p.1, p.2))
    | '/' :: r => (parseStringBody r).map (fun p => ('/' :: p.1, p.2))
    | 'b' :: r => (parseStringBody r).map (fun p => ('\x08' :: p.1, p.2))
    | 'f' :: r => (parseStringBody r).map (fun p => ('\x0c' :: p.1, p.2))
    | 'n' :: r => (parseStringBody r).map (fun p => ('\n' :: p.1, p.2))
    | 'r' :: r => (parseStringBody r).map (fun p => ('\r' :: p.1, p.2))
    | 't' :: r => (parseStringBody r).map (fun p => ('\t' :: p.1, p.2))
    | 'u' :: a :: b :: c :: d :: r =>
      match hexVal a, hexVal b, hexVal c, hexVal d with
      | some ha, some hb, some hc, some hd =>
        let n := ((ha * 16 + hb) * 16 + hc) * 16 + hd
        if 0xD800 ≤ n ∧ n < 0xDC00 then
          match r with
          | '\\' :: 'u' :: e :: f :: g :: h :: r2 =>
            match hexVal e, hexVal f, hexVal g, hexVal h with
            | some he, some hf, some hg, some hh =>
              let m := ((he * 16 + hf) * 16 + hg) * 16 + hh
              if 0xDC00 ≤ m ∧ m < 0xE000 then
                let cp := 0x10000 + (n - 0xD800) * 0x400 + (m - 0xDC00)
                (parseStringBody r2).map (fun p => (Char.ofNat cp :: p.1, p.2))
              else none
            | _, _, _, _ => none
          | _ => none
        else if 0xDC00 ≤ n ∧ n < 0xE000 then none
        else (parseStringBody r).map (fun p => (Char.ofNat n :: p.1, p.2))
      | _, _, _, _ => none
    | _ => none
  | c :: rest =>
    if c.toNat < 0x20 then none
    else (parseStringBody rest).map (fun p => (c :: p.1, p.2))

/-- Numeric value of a digit run. -/
def digitsVal (d : Str) : Nat :=
  d.foldl (fun a c => a * 10 + (c.toNat - 48)) 0

/-- Build the Json number for a parsed literal: an integer literal that fits
i64 (or, when non-negative, u64) becomes `int`; everything else — a literal
with a fraction or exponent, an overflowing integer, or negative zero —
falls back to the symbolic `float` form (serde_json represents those as f64). -/
def mkJsonNumber (neg : Bool) (ds fs : Str) (exp : Option Int) : Json :=
  if fs = [] ∧ exp = none then
    let n : Int := digitsVal ds
    let v : Int := if neg then -n else n
    if neg ∧ n = 0 then Json.float 0 0
    else if -(2 ^ 63) ≤ v ∧ v < 2 ^ 63 then Json.int v
    else if ¬neg ∧ v < 2 ^ 64 then Json.int v
    else Json.float v 0
  else
    let mantissa : Int := digitsVal (ds ++ fs)
    let mantissa := if neg then -mantissa else mantissa
    Json.float mantissa (exp.getD 0 - fs.length)

/-- Parse an optional exponent part and finish the number. -/
def parseExpPart (neg : Bool) (ds fs : Str) (s : Str) : Option (Json × Str) :=
  match s with
  | 'e' :: r => parseExpDigits neg ds fs r
  | 'E' :: r => parseExpDigits neg ds fs r
  | _ =>
    if fs = [] then some (mkJsonNumber neg ds fs none, s)
    else some (mkJsonNumber neg ds fs (some 0), s)
where
  parseExpDigits (neg : Bool) (ds fs : Str) (r : Str) : Option (Json × Str) :=
    let (eneg, r1) := match r with
      | '-' :: r' => (true, r')
      | '+' :: r' => (false, r')
      | _ => (false, r)
    let es := r1.takeWhile Char.isDigit
    let r2 := r1.dropWhile Char.isDigit
    if es = [] then none
    else
      let e : Int := digitsVal es
      some (mkJsonNumber neg ds fs (some (if eneg then -e else e)), r2)

/-- Parse a JSON number literal: optional minus, an integer part without a
leading zero, optional fraction and exponent. -/
def parseNumber (s : Str) : Option (Json × Str) :=
  let (neg, s1) := match s with
    | '-' :: r => (true, r)
    | _ => (false, s)
  match s1 with
  | [] => none
  | c :: _ =>
    if ¬ c.isDigit then none
    else
      let ds := s1.takeWhile Char.isDigit
      let s2 := s1.dropWhile Char.isDigit
      if c = '0' ∧ 1 < ds.length then none
      else
        match s2 with
        | '.' :: r =>
          let fs := r.takeWhile Char.isDigit
          let s3 := r.dropWhile Char.isDigit
          if fs = [] then none
          else parseExpPart neg ds fs s3
        | _ => parseExpPart neg ds [] s2

mutual

/-- Parse one JSON value (fuel-indexed recursive descent); returns the value
and the remaining input. -/
def parseValue : Nat → Str → Option (Json × Str)
  | 0, _ => none
  | Nat.succ fuel, s =>
    match jsonSkipWs s with
    | '{' :: rest => parseObjectRest fuel (jsonSkipWs rest) []
    | '[' :: rest => parseArrayRest fuel (jsonSkipWs rest) []
    | '"' :: rest => (parseStringBody rest).map (fun p => (Json.str p.1, p.2))
    | 't' :: 'r' :: 'u' :: 'e' :: rest => some (Json.bool true, rest)
    | 'f' :: 'a' :: 'l' :: 's' :: 'e' :: rest => some (Json.bool false, rest)
    | 'n' :: 'u' :: 'l' :: 'l' :: rest => some (Json.null, rest)
    | s' => parseNumber s'

/-- Parse the elements of an array after the opening bracket (whitespace
already skipped), accumulating parsed items. -/
def parseArrayRest : Nat → Str → List Json → Option (Json × Str)
  | 0, _, _ => none
  | Nat.succ fuel, s, acc =>
    match s with
    | ']' :: rest => if acc.isEmpty then some (Json.arr [], rest) else none
    | _ =>
      match parseValue fuel s with
      | none => none
      | some (v, rest) =>
        match jsonSkipWs rest with
        | ',' :: rest2 => parseArrayRest fuel (jsonSkipWs rest2) (acc ++ [v])
        | ']' :: rest2 => some (Json.arr (acc ++ [v]), rest2)
        | _ => none

/-- Parse the members of an object after the opening brace (whitespace
already skipped), accumulating parsed fields with last-wins duplicates. -/
def parseObjectRest : Nat → Str → List (Str × Json) → Option (Json × Str)
  | 0, _, _ => none
  | Nat.succ fuel, s, acc =>
    match s with
    | '}' :: rest => if acc.isEmpty then some (Json.obj [], rest) else none
    | '"' :: rest =>
      match parseStringBody rest with
      | none => none
      | some (k, rest1) =>
        match jsonSkipWs rest1 with
        | ':' :: rest2 =>
          match parseValue fuel (jsonSkipWs rest2) with
          | none => none
          | some (v, rest3) =>
            let acc := objInsert acc k v
            match jsonSkipWs rest3 with
            | ',' :: rest4 => parseObjectRest fuel (jsonSkipWs rest4) acc
            | '}' :: rest4 => some (Json.obj acc, rest4)
            | _ => none
        | _ => none
    | _ => none

end

/-- Model of `serde_json::from_str::<Value>`: parse one value and require
only whitespace to remain. -/
def json_from_str (s : Str) : Option Json :=
  match parseValue (s.length + 1) s with
  | some (v, rest) => if jsonSkipWs rest = [] then some v else none
  | none => none

/-! ## Typed message data model (src/types/*.rs)

Field and variant names follow the Rust definitions; Rust `u32` fields are
`Nat` (their decoder enforces the u32 range).  The `partial_json` field of
`ToolUseBlock` and of `ContentBlockDelta::InputJsonDelta` is named `pjson`
here. -/

/-- Model of `StopReason` (src/types/common.rs). -/
inductive StopReason where
  | endTurn
  | maxTokens
  | stopSequence
  | toolUse
  | refusal
deriving DecidableEq, Repr

/-- Model of `Role` (src/types/common.rs). -/
inductive Role where
  | user
  | assistant
deriving DecidableEq, Repr

/-- Model of `ServerToolUsage` (src/types/usage.rs). -/
structure ServerToolUsage where
  web_search_requests : Option Nat
deriving DecidableEq, Repr

/-- Model of `Usage` (src/types/usage.rs). -/
structure Usage where
  input_tokens : Nat
  output_tokens : Nat
  cache_creation_input_tokens : Option Nat
  cache_read_input_tokens : Option Nat
  server_tool_use : Option ServerToolUsage
deriving DecidableEq, Repr

/-- Model of `MessageDeltaUsage` (src/types/usage.rs). -/
structure MessageDeltaUsage where
  output_tokens : Nat
deriving DecidableEq, Repr

/-- Model of `CacheControl` (src/types/metadata.rs); `cache_type` is the
field serialized as `type`. -/
structure CacheControl where
  cache_type : Str
deriving DecidableEq, Repr

/-- Model of `CitationsConfig` (src/types/citation.rs). -/
structure CitationsConfig where
  enabled : Option Bool
deriving DecidableEq, Repr

/-- Model of `CharLocationCitation` (src/types/citation.rs). -/
structure CharLocationCitation where
  cited_text : Str
  document_index : Nat
  document_title : Option Str
  start_char_index : Nat
  end_char_index : Nat
deriving DecidableEq, Repr

/-- Model of `PageLocationCitation` (src/types/citation.rs). -/
structure PageLocationCitation where
  cited_text : Str
  document_index : Nat
  document_title : Option Str
  start_page_number : Nat
  end_page_number : Nat
deriving DecidableEq, Repr

/-- Model of `ContentBlockLocationCitation` (src/types/citation.rs). -/
structure ContentBlockLocationCitation where
  cited_text : Str
  document_index : Nat
  document_title : Option Str
  start_block_index : Nat
  end_block_index : Nat
deriving DecidableEq, Repr

/-- Model of `WebSearchResultLocationCitation` (src/types/citation.rs). -/
structure WebSearchResultLocationCitation where
  cited_text : Str
  encrypted_index : Str
  title : Option Str
  url : Option Str
deriving DecidableEq, Repr

/-- Model of `SearchResultLocationCitation` (src/types/citation.rs). -/
structure SearchResultLocationCitation where
  cited_text : Str
  document_index : Nat
  document_title : Option Str
  start_char_index : Nat
  end_char_index : Nat
deriving DecidableEq, Repr

/-- Model of `TextCitation` (src/types/citation.rs), internally tagged by
`type` with snake_case variant names. -/
inductive TextCitation where
  | charLocation (c : CharLocationCitation)
  | pageLocation (c : PageLocationCitation)
  | contentBlockLocation (c : ContentBlockLocationCitation)
  | webSearchResultLocation (c : WebSearchResultLocationCitation)
  | searchResultLocation (c : SearchResultLocationCitation)
deriving DecidableEq, Repr

/-- Model of `TextBlockParam` (src/types/content.rs). -/
structure TextBlockParam where
  text : Str
  cache_control : Option CacheControl
  citations : Option CitationsConfig
deriving DecidableEq, Repr

/-- Model of `DocumentSource` (src/types/document.rs) with its payload
structs inlined as anonymous fields. -/
inductive DocumentSource where
  | base64 (media_type : Str) (data : Str)
  | text (media_type : Str) (data : Str)
  | content (content : List TextBlockParam)
  | url (url : Str)
deriving DecidableEq, Repr

/-- Model of `TextBlock` (src/types/content.rs). -/
structure TextBlock where
  text : Str
  citations : Option (List TextCitation)
deriving DecidableEq, Repr

/-- Model of `ThinkingBlock` (src/types/content.rs). -/
structure ThinkingBlock where
  thinking : Str
  signature : Str
deriving DecidableEq, Repr

/-- Model of `RedactedThinkingBlock` (src/types/content.rs). -/
structure RedactedThinkingBlock where
  data : Str
deriving DecidableEq, Repr

/-- Model of `ToolUseBlock` (src/types/content.rs); `pjson` is the
`#[serde(skip)] partial_json` field, always `none` after deserialization. -/
structure ToolUseBlock where
  id : Str
  name : Str
  input : Json
  pjson : Option Str
deriving Repr

/-- Model of `ServerToolUseBlock` (src/types/content.rs). -/
structure ServerToolUseBlock where
  id : Str
  name : Str
  input : Json
deriving Repr

/-- Model of `WebSearchResultBlock` (src/types/content.rs); `result_type` is
serialized as `type`. -/
structure WebSearchResultBlock where
  result_type : Str
  url : Str
  title : Str
  encrypted_content : Option Str
  page_age : Option Str
deriving DecidableEq, Repr

/-- Model of `WebSearchToolResultErrorCode` (src/types/content.rs). -/
inductive WebSearchToolResultErrorCode where
  | invalidToolInput
  | unavailable
  | maxUsesExceeded
  | tooManyRequests
  | queryTooLong
  | requestTooLarge
deriving DecidableEq, Repr

/-- Model of `WebSearchToolRequestError` (src/types/content.rs);
`error_type` is serialized as `type`. -/
structure WebSearchToolRequestError where
  error_type : Str
  error_code : WebSearchToolResultErrorCode
  message : Option Str
deriving DecidableEq, Repr

/-- Model of `WebSearchToolResultContent` (src/types/content.rs), an
untagged union tried in declaration order. -/
inductive WebSearchToolResultContent where
  | results (rs : List WebSearchResultBlock)
  | error (e : WebSearchToolRequestError)
deriving DecidableEq, Repr

/-- Model of `WebSearchToolResultBlock` (src/types/content.rs). -/
structure WebSearchToolResultBlock where
  tool_use_id : Str
  content : WebSearchToolResultContent
deriving DecidableEq, Repr

/-- Model of `ContainerUploadBlock` (src/types/content.rs). -/
structure ContainerUploadBlock where
  file_id : Str
deriving DecidableEq, Repr

/-- Model of `WebFetchToolResultErrorCode` (src/types/content.rs). -/
inductive WebFetchToolResultErrorCode where
  | invalidToolInput
  | urlTooLong
  | urlNotAllowed
  | urlNotAccessible
  | unsupportedContentType
  | tooManyRequests
  | maxUsesExceeded
  | unavailable
deriving DecidableEq, Repr

/-- Model of `WebFetchBlock` (src/types/content.rs). -/
structure WebFetchBlock where
  url : Str
  content : DocumentSource
  retrieved_at : Str
deriving DecidableEq, Repr

/-- Model of `WebFetchToolResultErrorBlock` (src/types/content.rs). -/
structure WebFetchToolResultErrorBlock where
  error_code : WebFetchToolResultErrorCode
deriving DecidableEq, Repr

/-- Model of `WebFetchToolResultContent` (src/types/content.rs), untagged. -/
inductive WebFetchToolResultContent where
  | success (b : WebFetchBlock)
  | error (e : WebFetchToolResultErrorBlock)
deriving DecidableEq, Repr

/-- Model of `WebFetchToolResultBlock` (src/types/content.rs). -/
structure WebFetchToolResultBlock where
  tool_use_id : Str
  content : WebFetchToolResultContent
  caller : Option Json
deriving Repr

/-- Model of `ToolReferenceBlock` (src/types/content.rs). -/
structure ToolReferenceBlock where
  tool_name : Str
  description : Option Str
deriving DecidableEq, Repr

/-- Model of `ToolSearchToolSearchResultBlock` (src/types/content.rs). -/
structure ToolSearchToolSearchResultBlock where
  tool_references : List ToolReferenceBlock
deriving DecidableEq, Repr

/-- Model of `ToolSearchToolResultErrorCode` (src/types/content.rs). -/
inductive ToolSearchToolResultErrorCode where
  | invalidToolInput
  | unavailable
  | tooManyRequests
  | executionTimeExceeded
deriving DecidableEq, Repr

/-- Model of `ToolSearchToolResultError` (src/types/content.rs). -/
structure ToolSearchToolResultError where
  error_code : ToolSearchToolResultErrorCode
  error_message : Str
deriving DecidableEq, Repr

/-- Model of `ToolSearchToolResultContent` (src/types/content.rs), untagged. -/
inductive ToolSearchToolResultContent where
  | searchResult (b : ToolSearchToolSearchResultBlock)
  | error (e : ToolSearchToolResultError)
deriving DecidableEq, Repr

/-- Model of `ToolSearchToolResultBlock` (src/types/content.rs). -/
structure ToolSearchToolResultBlock where
  tool_use_id : Str
  content : ToolSearchToolResultContent
deriving DecidableEq, Repr

/-- Model of `ContentBlock` (src/types/content.rs), internally tagged by
`type` with snake_case variant names. -/
inductive ContentBlock where
  | text (b : TextBlock)
  | thinking (b : ThinkingBlock)
  | redactedThinking (b : RedactedThinkingBlock)
  | toolUse (b : ToolUseBlock)
  | serverToolUse (b : ServerToolUseBlock)
  | webSearchToolResult (b : WebSearchToolResultBlock)
  | containerUpload (b : ContainerUploadBlock)
  | webFetchToolResult (b : WebFetchToolResultBlock)
  | toolSearchToolResult (b : ToolSearchToolResultBlock)
deriving Repr

/-- Model of `Message` (src/types/message.rs); `message_type` is the field
serialized as `type`. -/
structure Message where
  id : Str
  message_type : Str
  role : Role
  content : List ContentBlock
  model : Str
  stop_reason : Option StopReason
  stop_sequence : Option Str
  usage : Usage
deriving Repr

/-- Model of `ApiErrorBody` (src/error.rs); `error_type` is the field
serialized as `type`. -/
structure ApiErrorBody where
  error_type : Str
  message : Str
deriving DecidableEq, Repr

/-- Model of `ContentBlockDelta` (src/messages/streaming.rs lines 50-66),
internally tagged by `type`; `pjson` is the `partial_json` payload of
`InputJsonDelta`. -/
inductive ContentBlockDelta where
  | textDelta (text : Str)
  | inputJsonDelta (pjson : Str)
  | thinkingDelta (thinking : Str)
  | signatureDelta (signature : Str)
  | citationsDelta (citation : Json)
deriving Repr

/-- Model of `MessageDelta` (src/messages/streaming.rs lines 70-73). -/
structure MessageDelta where
  stop_reason : Option StopReason
  stop_sequence : Option Str
deriving DecidableEq, Repr

/-- Model of `StreamEvent` (src/messages/streaming.rs lines 20-44),
internally tagged by `type` with snake_case variant names. -/
inductive StreamEvent where
  | messageStart (message : Message)
  | contentBlockStart (index : Nat) (content_block : ContentBlock)
  | contentBlockDelta (index : Nat) (delta : ContentBlockDelta)
  | contentBlockStop (index : Nat)
  | messageDelta (delta : MessageDelta) (usage : MessageDeltaUsage)
  | messageStop
  | ping
  | error (error : ApiErrorBody)
deriving Repr

/-! ## Structural decoding (model of the serde-derived Deserialize impls)

These functions model the deserializers that `#[derive(Deserialize)]`
generates for the types above under `serde_json::from_value`: structs read
named fields from a JSON object (unknown fields ignored; a missing
non-`Option` field is an error; an `Option` field is `none` when missing or
null); internally tagged enums dispatch on the string under the `type` key;
untagged enums try their variants in declaration order.  Error payloads are
short descriptions; the claims depend only on which inputs error, not on the
exact serde message text. -/

/-- Decode a JSON string. -/
def decodeStr : Json → Except Str Str
  | .str s => .ok s
  | _ => .error "invalid type: expected a string".data

/-- Decode a JSON boolean. -/
def decodeBool : Json → Except Str Bool
  | .bool b => .ok b
  | _ => .error "invalid type: expected a boolean".data

/-- Decode a u32: an integer literal in range (floats and out-of-range
integers are serde errors). -/
def decodeU32 : Json → Except Str Nat
  | .int n => if 0 ≤ n ∧ n < 2 ^ 32 then .ok n.toNat else .error "invalid value: out of range for u32".data
  | _ => .error "invalid type: expected u32".data

/-- Keep a `serde_json::Value` field as-is. -/
def decodeValue : Json → Except Str Json := fun v => .ok v

/-- Decode a JSON array elementwise. -/
def decodeArr (f : Json → Except Str α) : Json → Except Str (List α)
  | .arr items => items.mapM f
  | _ => .error "invalid type: expected a sequence".data

/-- A required struct field: missing is an error, otherwise the field's
decoder runs on the stored value (including null). -/
def reqField (kvs : List (Str × Json)) (name : Str)
    (f : Json → Except Str α) : Except Str α :=
  match objLookup kvs name with
  | some v => f v
  | none => .error ("missing field ".data ++ name)

/-- An `Option` struct field: `none` when missing or null. -/
def optField (kvs : List (Str × Json)) (name : Str)
    (f : Json → Except Str α) : Except Str (Option α) :=
  match objLookup kvs name with
  | none => .ok none
  | some .null => .ok none
  | some v => (f v).map some

/-- Decode `Role`. -/
def decodeRole : Json → Except Str Role
  | .str s =>
    if s = "user".data then .ok .user
    else if s = "assistant".data then .ok .assistant
    else .error "unknown variant of Role".data
  | _ => .error "invalid type: expected a string for Role".data

/-- Decode `StopReason`. -/
def decodeStopReason : Json → Except Str StopReason
  | .str s =>
    if s = "end_turn".data then .ok .endTurn
    else if s = "max_tokens".data then .ok .maxTokens
    else if s = "stop_sequence".data then .ok .stopSequence
    else if s = "tool_use".data then .ok .toolUse
    else if s = "refusal".data then .ok .refusal
    else .error "unknown variant of StopReason".data
  | _ => .error "invalid type: expected a string for StopReason".data

/-- Decode `ServerToolUsage`. -/
def decodeServerToolUsage : Json → Except Str ServerToolUsage
  | .obj kvs => do
    let w ← optField kvs "web_search_requests".data decodeU32
    return ⟨w⟩
  | _ => .error "invalid type: expected ServerToolUsage map".data

/-- Decode `Usage`. -/
def decodeUsage : Json → Except Str Usage
  | .obj kvs => do
    let it ← reqField kvs "input_tokens".data decodeU32
    let ot ← reqField kvs "output_tokens".data decodeU32
    let cc ← optField kvs "cache_creation_input_tokens".data decodeU32
    let cr ← optField kvs "cache_read_input_tokens".data decodeU32
    let st ← optField kvs "server_tool_use".data decodeServerToolUsage
    return ⟨it, ot, cc, cr, st⟩
  | _ => .error "invalid type: expected Usage map".data

/-- Decode `MessageDeltaUsage`. -/
def decodeMessageDeltaUsage : Json → Except Str MessageDeltaUsage
  | .obj kvs => do
    let ot ← reqField kvs "output_tokens".data decodeU32
    return ⟨ot⟩
  | _ => .error "invalid type: expected MessageDeltaUsage map".data

/-- Decode `CacheControl` (field `type`). -/
def decodeCacheControl : Json → Except Str CacheControl
  | .obj kvs => do
    let t ← reqField kvs "type".data decodeStr
    return ⟨t⟩
  | _ => .error "invalid type: expected CacheControl map".data

/-- Decode `CitationsConfig`. -/
def decodeCitationsConfig : Json → Except Str CitationsConfig
  | .obj kvs => do
    let e ← optField kvs "enabled".data decodeBool
    return ⟨e⟩
  | _ => .error "invalid type: expected CitationsConfig map".data

/-- Decode `CharLocationCitation` fields. -/
def decodeCharLocationCitation (kvs : List (Str × Json)) :
    Except Str CharLocationCitation := do
  let ct ← reqField kvs "cited_text".data decodeStr
  let di ← reqField kvs "document_index".data decodeU32
  let dt ← optField kvs "document_title".data decodeStr
  let sc ← reqField kvs "start_char_index".data decodeU32
  let ec ← reqField kvs "end_char_index".data decodeU32
  return ⟨ct, di, dt, sc, ec⟩

/-- Decode `PageLocationCitation` fields. -/
def decodePageLocationCitation (kvs : List (Str × Json)) :
    Except Str PageLocationCitation := do
  let ct ← reqField kvs "cited_text".data decodeStr
  let di ← reqField kvs "document_index".data decodeU32
  let dt ← optField kvs "document_title".data decodeStr
  let sp ← reqField kvs "start_page_number".data decodeU32
  let ep ← reqField kvs "end_page_number".data decodeU32
  return ⟨ct, di, dt, sp, ep⟩

/-- Decode `ContentBlockLocationCitation` fields. -/
def decodeContentBlockLocationCitation (kvs : List (Str × Json)) :
    Except Str ContentBlockLocationCitation := do
  let ct ← reqField kvs "cited_text".data decodeStr
  let di ← reqField kvs "document_index".data decodeU32
  let dt ← optField kvs "document_title".data decodeStr
  let sb ← reqField kvs "start_block_index".data decodeU32
  let eb ← reqField kvs "end_block_index".data decodeU32
  return ⟨ct, di, dt, sb, eb⟩

/-- Decode `WebSearchResultLocationCitation` fields. -/
def decodeWebSearchResultLocationCitation (kvs : List (Str × Json)) :
    Except Str WebSearchResultLocationCitation := do
  let ct ← reqField kvs "cited_text".data decodeStr
  let ei ← reqField kvs "encrypted_index".data decodeStr
  let ti ← optField kvs "title".data decodeStr
  let u ← optField kvs "url".data decodeStr
  return ⟨ct, ei, ti, u⟩

/-- Decode `SearchResultLocationCitation` fields. -/
def decodeSearchResultLocationCitation (kvs : List (Str × Json)) :
    Except Str SearchResultLocationCitation := do
  let ct ← reqField kvs "cited_text".data decodeStr
  let di ← reqField kvs "document_index".data decodeU32
  let dt ← optField kvs "document_title".data decodeStr
  let sc ← reqField kvs "start_char_index".data decodeU32
  let ec ← reqField kvs "end_char_index".data decodeU32
  return ⟨ct, di, dt, sc, ec⟩

/-- Decode `TextCitation` (internally tagged by `type`). -/
def decodeTextCitation : Json → Except Str TextCitation
  | .obj kvs =>
    match objLookup kvs "type".data with
    | some (.str tag) =>
      if tag = "char_location".data then
        (decodeCharLocationCitation kvs).map TextCitation.charLocation
      else if tag = "page_location".data then
        (decodePageLocationCitation kvs).map TextCitation.pageLocation
      else if tag = "content_block_location".data then
        (decodeContentBlockLocationCitation kvs).map TextCitation.contentBlockLocation
      else if tag = "web_search_result_location".data then
        (decodeWebSearchResultLocationCitation kvs).map TextCitation.webSearchResultLocation
      else if tag = "search_result_location".data then
        (decodeSearchResultLocationCitation kvs).map TextCitation.searchResultLocation
      else .error "unknown variant of TextCitation".data
    | some _ => .error "invalid type: TextCitation tag is not a string".data
    | none => .error "missing field type".data
  | _ => .error "invalid type: expected TextCitation map".data

/-- Decode `TextBlockParam`. -/
def decodeTextBlockParam : Json → Except Str TextBlockParam
  | .obj kvs => do
    let t ← reqField kvs "text".data decodeStr
    let cc ← optField kvs "cache_control".data decodeCacheControl
    let ci ← optField kvs "citations".data decodeCitationsConfig
    return ⟨t, cc, ci⟩
  | _ => .error "invalid type: expected TextBlockParam map".data

/-- Decode `DocumentSource` (internally tagged by `type`). -/
def decodeDocumentSource : Json → Except Str DocumentSource
  | .obj kvs =>
    match objLookup kvs "type".data with
    | some (.str tag) =>
      if tag = "base64".data then do
        let mt ← reqField kvs "media_type".data decodeStr
        let d ← reqField kvs "data".data decodeStr
        return .base64 mt d
      else if tag = "text".data then do
        let mt ← reqField kvs "media_type".data decodeStr
        let d ← reqField kvs "data".data decodeStr
        return .text mt d
      else if tag = "content".data then do
        let c ← reqField kvs "content".data (decodeArr decodeTextBlockParam)
        return .content c
      else if tag = "url".data then do
        let u ← reqField kvs "url".data decodeStr
        return .url u
      else .error "unknown variant of DocumentSource".data
    | some _ => .error "invalid type: DocumentSource tag is not a string".data
    | none => .error "missing field type".data
  | _ => .error "invalid type: expected DocumentSource map".data

/-- Decode `WebSearchResultBlock` (field `type` is `result_type`). -/
def decodeWebSearchResultBlock : Json → Except Str WebSearchResultBlock
  | .obj kvs => do
    let rt ← reqField kvs "type".data decodeStr
    let u ← reqField kvs "url".data decodeStr
    let ti ← reqField kvs "title".data decodeStr
    let ec ← optField kvs "encrypted_content".data decodeStr
    let pa ← optField kvs "page_age".data decodeStr
    return ⟨rt, u, ti, ec, pa⟩
  | _ => .error "invalid type: expected WebSearchResultBlock map".data

/-- Decode `WebSearchToolResultErrorCode`. -/
def decodeWebSearchToolResultErrorCode : Json → Except Str WebSearchToolResultErrorCode
  | .str s =>
    if s = "invalid_tool_input".data then .ok .invalidToolInput
    else if s = "unavailable".data then .ok .unavailable
    else if s = "max_uses_exceeded".data then .ok .maxUsesExceeded
    else if s = "too_many_requests".data then .ok .tooManyRequests
    else if s = "query_too_long".data then .ok .queryTooLong
    else if s = "request_too_large".data then .ok .requestTooLarge
    else .error "unknown variant of WebSearchToolResultErrorCode".data
  | _ => .error "invalid type: expected a string".data

/-- Decode `WebSearchToolRequestError` (field `type` is `error_type`). -/
def decodeWebSearchToolRequestError : Json → Except Str WebSearchToolRequestError
  | .obj kvs => do
    let et ← reqField kvs "type".data decodeStr
    let ec ← reqField kvs "error_code".data decodeWebSearchToolResultErrorCode
    let m ← optField kvs "message".data decodeStr
    return ⟨et, ec, m⟩
  | _ => .error "invalid type: expected WebSearchToolRequestError map".data

/-- Decode the untagged `WebSearchToolResultContent`: try `Results`, then
`Error`. -/
def decodeWebSearchToolResultContent (v : Json) :
    Except Str WebSearchToolResultContent :=
  match (decodeArr decodeWebSearchResultBlock v).map WebSearchToolResultContent.results with
  | .ok r => .ok r
  | .error _ =>
    match (decodeWebSearchToolRequestError v).map WebSearchToolResultContent.error with
    | .ok r => .ok r
    | .error _ => .error "data did not match any variant of untagged enum WebSearchToolResultContent".data

/-- Decode `WebFetchToolResultErrorCode`. -/
def decodeWebFetchToolResultErrorCode : Json → Except Str WebFetchToolResultErrorCode
  | .str s =>
    if s = "invalid_tool_input".data then .ok .invalidToolInput
    else if s = "url_too_long".data then .ok .urlTooLong
    else if s = "url_not_allowed".data then .ok .urlNotAllowed
    else if s = "url_not_accessible".data then .ok .urlNotAccessible
    else if s = "unsupported_content_type".data then .ok .unsupportedContentType
    else if s = "too_many_requests".data then .ok .tooManyRequests
    else if s = "max_uses_exceeded".data then .ok .maxUsesExceeded
    else if s = "unavailable".data then .ok .unavailable
    else .error "unknown variant of WebFetchToolResultErrorCode".data
  | _ => .error "invalid type: expected a string".data

/-- Decode `WebFetchBlock`. -/
def decodeWebFetchBlock : Json → Except Str WebFetchBlock
  | .obj kvs => do
    let u ← reqField kvs "url".data decodeStr
    let c ← reqField kvs "content".data decodeDocumentSource
    let ra ← reqField kvs "retrieved_at".data decodeStr
    return ⟨u, c, ra⟩
  | _ => .error "invalid type: expected WebFetchBlock map".data

/-- Decode `WebFetchToolResultErrorBlock`. -/
def decodeWebFetchToolResultErrorBlock : Json → Except Str WebFetchToolResultErrorBlock
  | .obj kvs => do
    let ec ← reqField kvs "error_code".data decodeWebFetchToolResultErrorCode
    return ⟨ec⟩
  | _ => .error "invalid type: expected WebFetchToolResultErrorBlock map".data

/-- Decode the untagged `WebFetchToolResultContent`: try `Success`, then
`Error`. -/
def decodeWebFetchToolResultContent (v : Json) :
    Except Str WebFetchToolResultContent :=
  match (decodeWebFetchBlock v).map WebFetchToolResultContent.success with
  | .ok r => .ok r
  | .error _ =>
    match (decodeWebFetchToolResultErrorBlock v).map WebFetchToolResultContent.error with
    | .ok r => .ok r
    | .error _ => .error "data did not match any variant of untagged enum WebFetchToolResultContent".data

/-- Decode `ToolReferenceBlock`. -/
def decodeToolReferenceBlock : Json → Except Str ToolReferenceBlock
  | .obj kvs => do
    let tn ← reqField kvs "tool_name".data decodeStr
    let d ← optField kvs "description".data decodeStr
    return ⟨tn, d⟩
  | _ => .error "invalid type: expected ToolReferenceBlock map".data

/-- Decode `ToolSearchToolResultErrorCode`. -/
def decodeToolSearchToolResultErrorCode : Json → Except Str ToolSearchToolResultErrorCode
  | .str s =>
    if s = "invalid_tool_input".data then .ok .invalidToolInput
    else if s = "unavailable".data then .ok .unavailable
    else if s = "too_many_requests".data then .ok .tooManyRequests
    else if s = "execution_time_exceeded".data then .ok .executionTimeExceeded
    else .error "unknown variant of ToolSearchToolResultErrorCode".data
  | _ => .error "invalid type: expected a string".data

/-- Decode the untagged `ToolSearchToolResultContent`: try `SearchResult`,
then `Error`. -/
def decodeToolSearchToolResultContent (v : Json) :
    Except Str ToolSearchToolResultContent :=
  match v with
  | .obj kvs =>
    match (do
        let tr ← reqField kvs "tool_references".data (decodeArr decodeToolReferenceBlock)
        pure (ToolSearchToolResultContent.searchResult ⟨tr⟩) : Except Str ToolSearchToolResultContent) with
    | .ok r => .ok r
    | .error _ =>
      match (do
          let ec ← reqField kvs "error_code".data decodeToolSearchToolResultErrorCode
          let em ← reqField kvs "error_message".data decodeStr
          pure (ToolSearchToolResultContent.error ⟨ec, em⟩) : Except Str ToolSearchToolResultContent) with
      | .ok r => .ok r
      | .error _ => .error "data did not match any variant of untagged enum ToolSearchToolResultContent".data
  | _ => .error "data did not match any variant of untagged enum ToolSearchToolResultContent".data

/-- Decode `ContentBlock` (internally tagged by `type`). -/
def decodeContentBlock : Json → Except Str ContentBlock
  | .obj kvs =>
    match objLookup kvs "type".data with
    | some (.str tag) =>
      if tag = "text".data then do
        let t ← reqField kvs "text".data decodeStr
        let ci ← optField kvs "citations".data (decodeArr decodeTextCitation)
        return .text ⟨t, ci⟩
      else if tag = "thinking".data then do
        let th ← reqField kvs "thinking".data decodeStr
        let sg ← reqField kvs "signature".data decodeStr
        return .thinking ⟨th, sg⟩
      else if tag = "redacted_thinking".data then do
        let d ← reqField kvs "data".data decodeStr
        return .redactedThinking ⟨d⟩
      else if tag = "tool_use".data then do
        let i ← reqField kvs "id".data decodeStr
        let n ← reqField kvs "name".data decodeStr
        let inp ← reqField kvs "input".data decodeValue
        return .toolUse ⟨i, n, inp, none⟩
      else if tag = "server_tool_use".data then do
        let i ← reqField kvs "id".data decodeStr
        let n ← reqField kvs "name".data decodeStr
        let inp ← reqField kvs "input".data decodeValue
        return .serverToolUse ⟨i, n, inp⟩
      else if tag = "web_search_tool_result".data then do
        let tid ← reqField kvs "tool_use_id".data decodeStr
        let c ← reqField kvs "content".data decodeWebSearchToolResultContent
        return .webSearchToolResult ⟨tid, c⟩
      else if tag = "container_upload".data then do
        let f ← reqField kvs "file_id".data decodeStr
        return .containerUpload ⟨f⟩
      else if tag = "web_fetch_tool_result".data then do
        let tid ← reqField kvs "tool_use_id".data decodeStr
        let c ← reqField kvs "content".data decodeWebFetchToolResultContent
        let ca ← optField kvs "caller".data decodeValue
        return .webFetchToolResult ⟨tid, c, ca⟩
      else if tag = "tool_search_tool_result".data then do
        let tid ← reqField kvs "tool_use_id".data decodeStr
        let c ← reqField kvs "content".data decodeToolSearchToolResultContent
        return .toolSearchToolResult ⟨tid, c⟩
      else .error "unknown variant of ContentBlock".data
    | some _ => .error "invalid type: ContentBlock tag is not a string".data
    | none => .error "missing field type".data
  | _ => .error "invalid type: expected ContentBlock map".data

/-- Decode `Message` (field `type` is `message_type`). -/
def decodeMessage : Json → Except Str Message
  | .obj kvs => do
    let i ← reqField kvs "id".data decodeStr
    let mt ← reqField kvs "type".data decodeStr
    let r ← reqField kvs "role".data decodeRole
    let c ← reqField kvs "content".data (decodeArr decodeContentBlock)
    let mo ← reqField kvs "model".data decodeStr
    let sr ← optField kvs "stop_reason".data decodeStopReason
    let ss ← optField kvs "stop_sequence".data decodeStr
    let u ← reqField kvs "usage".data decodeUsage
    return ⟨i, mt, r, c, mo, sr, ss, u⟩
  | _ => .error "invalid type: expected Message map".data

/-- Decode `ApiErrorBody` (field `type` is `error_type`). -/
def decodeApiErrorBody : Json → Except Str ApiErrorBody
  | .obj kvs => do
    let et ← reqField kvs "type".data decodeStr
    let m ← reqField kvs "message".data decodeStr
    return ⟨et, m⟩
  | _ => .error "invalid type: expected ApiErrorBody map".data

/-- Decode `ContentBlockDelta` (internally tagged by `type`). -/
def decodeContentBlockDelta : Json → Except Str ContentBlockDelta
  | .obj kvs =>
    match objLookup kvs "type".data with
    | some (.str tag) =>
      if tag = "text_delta".data then do
        let t ← reqField kvs "text".data decodeStr
        return .textDelta t
      else if tag = "input_json_delta".data then do
        let pj ← reqField kvs "partial_json".data decodeStr
        return .inputJsonDelta pj
      else if tag = "thinking_delta".data then do
        let th ← reqField kvs "thinking".data decodeStr
        return .thinkingDelta th
      else if tag = "signature_delta".data then do
        let sg ← reqField kvs "signature".data decodeStr
        return .signatureDelta sg
      else if tag = "citations_delta".data then do
        let ci ← reqField kvs "citation".data decodeValue
        return .citationsDelta ci
      else .error "unknown variant of ContentBlockDelta".data
    | some _ => .error "invalid type: ContentBlockDelta tag is not a string".data
    | none => .error "missing field type".data
  | _ => .error "invalid type: expected ContentBlockDelta map".data

/-- Decode `MessageDelta`. -/
def decodeMessageDelta : Json → Except Str MessageDelta
  | .obj kvs => do
    let sr ← optField kvs "stop_reason".data decodeStopReason
    let ss ← optField kvs "stop_sequence".data decodeStr
    return ⟨sr, ss⟩
  | _ => .error "invalid type: expected MessageDelta map".data

/-- The tag strings of the `StreamEvent` union's variants. -/
def streamEventTags : List Str :=
  ["message_start".data, "content_block_start".data, "content_block_delta".data,
   "content_block_stop".data, "message_delta".data, "message_stop".data,
   "ping".data, "error".data]

/-- Decode `StreamEvent` (internally tagged by `type`): the model of
`serde_json::from_value::<StreamEvent>` in `parse_stream_event`. -/
def deserialize_stream_event : Json → Except Str StreamEvent
  | .obj kvs =>
    match objLookup kvs "type".data with
    | some (.str tag) =>
      if tag = "message_start".data then do
        let m ← reqField kvs "message".data decodeMessage
        return .messageStart m
      else if tag = "content_block_start".data then do
        let i ← reqField kvs "index".data decodeU32
        let b ← reqField kvs "content_block".data decodeContentBlock
        return .contentBlockStart i b
      else if tag = "content_block_delta".data then do
        let i ← reqField kvs "index".data decodeU32
        let d ← reqField kvs "delta".data decodeContentBlockDelta
        return .contentBlockDelta i d
      else if tag = "content_block_stop".data then do
        let i ← reqField kvs "index".data decodeU32
        return .contentBlockStop i
      else if tag = "message_delta".data then do
        let d ← reqField kvs "delta".data decodeMessageDelta
        let u ← reqField kvs "usage".data decodeMessageDeltaUsage
        return .messageDelta d u
      else if tag = "message_stop".data then return .messageStop
      else if tag = "ping".data then return .ping
      else if tag = "error".data then do
        let e ← reqField kvs "error".data decodeApiErrorBody
        return .error e
      else .error "unknown variant of StreamEvent".data
    | some _ => .error "invalid type: StreamEvent tag is not a string".data
    | none => .error "missing field type".data
  | _ => .error "invalid type: expected StreamEvent map".data

/-- The tag-injection step of `parse_stream_event`
(src/messages/streaming.rs lines 85-87): `value.as_object_mut()` inserts the
discriminator under `type` when the parsed data is an object, and leaves any
other value untouched. -/
def injectType (v : Json) (t : Str) : Json :=
  match v with
  | .obj kvs => .obj (objInsert kvs "type".data (.str t))
  | _ => v

/-- Model of `parse_stream_event` (src/messages/streaming.rs lines 76-93):
the `event` field (empty-string default) is the discriminator, the `data`
field (defaulting to `{}`) is parsed as JSON, the discriminator is injected,
and the value is structurally decoded into the `StreamEvent` union; JSON
parse failure and deserialization failure are descriptive `StreamError`s. -/
def parse_stream_event (raw : RawSseEvent) : Except Str StreamEvent :=
  let event_type := raw.event.getD []
  let data := raw.data.getD "\x7b\x7d".data
  match json_from_str data with
  | none => .error "Failed to parse SSE data as JSON".data
  | some value =>
    let value := injectType value event_type
    match deserialize_stream_event value with
    | .ok ev => .ok ev
    | .error e =>
      .error ("Failed to deserialize stream event '".data ++ event_type ++ "': ".data ++ e)

/-! ## Message accumulator (src/messages/streaming.rs lines 147-272) -/

/-- The placeholder installed for skipped content-block indices: an
empty-text block (src/messages/streaming.rs lines 175-178). -/
def placeholderBlock : ContentBlock :=
  ContentBlock.text ⟨[], none⟩

/-- The per-index partial-JSON buffers (`HashMap<usize, String>`), modelled
as an association list with unique keys. -/
abbrev JsonBufs := List (Nat × Str)

/-- Model of `HashMap::get`/`remove`'s lookup. -/
def bufsLookup (bufs : JsonBufs) (i : Nat) : Option Str :=
  (bufs.find? (fun p => p.1 = i)).map (fun p => p.2)

/-- Model of `HashMap::remove`'s deletion. -/
def bufsRemove (bufs : JsonBufs) (i : Nat) : JsonBufs :=
  bufs.filter (fun p => p.1 ≠ i)

/-- Model of `bufs.entry(index).or_default().push_str(s)`. -/
def bufsAppend (bufs : JsonBufs) (i : Nat) (s : Str) : JsonBufs :=
  if bufs.any (fun p => p.1 = i) then
    bufs.map (fun p => if p.1 = i then (i, p.2 ++ s) else p)
  else bufs ++ [(i, s)]

/-- Model of `apply_delta` (src/messages/streaming.rs lines 246-272):
returns the updated block and partial-JSON buffers; every (block kind, delta
kind) pair outside the four listed arms is a no-op. -/
def apply_delta (block : ContentBlock) (delta : ContentBlockDelta)
    (bufs : JsonBufs) (index : Nat) : ContentBlock × JsonBufs :=
  match block, delta with
  | .text tb, .textDelta t => (.text { tb with text := tb.text ++ t }, bufs)
  | .thinking th, .thinkingDelta t =>
    (.thinking { th with thinking := th.thinking ++ t }, bufs)
  | .thinking th, .signatureDelta sg =>
    (.thinking { th with signature := th.signature ++ sg }, bufs)
  | .toolUse tu, .inputJsonDelta pj => (.toolUse tu, bufsAppend bufs index pj)
  | b, _ => (b, bufs)

/-- The accumulator's state: the in-progress message, the content blocks,
and the per-index partial-JSON buffers (`accumulate_with`'s locals). -/
structure AccState where
  message : Option Message
  content_blocks : List ContentBlock
  json_bufs : JsonBufs
deriving Repr

/-- The initial accumulator state. -/
def initAccState : AccState := ⟨none, [], []⟩

/-- One non-`Error` event applied to the accumulator state: the `match` arms
of `accumulate_with` (src/messages/streaming.rs lines 167-218).  The `Error`
arm returns from the loop rather than updating state; it is handled in
`accumulate_loop` and is a state no-op here. -/
def applyEvent (st : AccState) (ev : StreamEvent) : AccState :=
  match ev with
  | .messageStart msg => { st with message := some msg }
  | .contentBlockStart index block =>
    let grown := st.content_blocks ++
      List.replicate (index + 1 - st.content_blocks.length) placeholderBlock
    { st with content_blocks := grown.set index block }
  | .contentBlockDelta index delta =>
    if h : index < st.content_blocks.length then
      let r := apply_delta (st.content_blocks.get ⟨index, h⟩) delta st.json_bufs index
      { st with content_blocks := st.content_blocks.set index r.1, json_bufs := r.2 }
    else st
  | .contentBlockStop index =>
    match bufsLookup st.json_bufs index with
    | some json_str =>
      let bufs := bufsRemove st.json_bufs index
      if h : index < st.content_blocks.length then
        match st.content_blocks.get ⟨index, h⟩ with
        | .toolUse tu =>
          let input := match json_from_str json_str with
            | some v => v
            | none => Json.str json_str
          { st with
            content_blocks := st.content_blocks.set index (.toolUse { tu with input := input }),
            json_bufs := bufs }
        | _ => { st with json_bufs := bufs }
      else { st with json_bufs := bufs }
    | none => st
  | .messageDelta delta usage =>
    match st.message with
    | some msg =>
      { st with message := some { msg with
          stop_reason := delta.stop_reason,
          stop_sequence := delta.stop_sequence,
          usage := { msg.usage with output_tokens := usage.output_tokens } } }
    | none => st
  | .messageStop => st
  | .ping => st
  | .error _ => st

/-- The event loop of `accumulate_with`: an `Error` event returns a terminal
`StreamError` immediately; every other event updates the state. -/
def accumulate_loop : AccState → List StreamEvent → Except Str AccState
  | st, [] => .ok st
  | st, ev :: rest =>
    match ev with
    | .error err =>
      .error ("Stream error: ".data ++ err.error_type ++ ": ".data ++ err.message)
    | _ => accumulate_loop (applyEvent st ev) rest

/-- Model of `MessageStream::accumulate` /`accumulate_with`
(src/messages/streaming.rs lines 147-230) over the list of events the stream
yields: run the loop, then either fail when no `message_start` was seen or
return the in-progress message with its content replaced by the accumulated
blocks.  (The per-event callback of `accumulate_with` does not affect the
result and is not modelled.) -/
def accumulate (events : List StreamEvent) : Except Str Message :=
  match accumulate_loop initAccState events with
  | .error e => .error e
  | .ok st =>
    match st.message with
    | some msg => .ok { msg with content := st.content_blocks }
    | none => .error "Stream ended without a message_start event".data

/-- The pure fold of `applyEvent` over a list of events, used to phrase
state invariants (it agrees with `accumulate_loop` on error-free inputs). -/
def runAcc (events : List StreamEvent) : AccState :=
  events.foldl applyEvent initAccState

/-! ## OAuth token manager and middleware (src/oauth.rs) -/

/-- The expiry safety margin (src/oauth.rs line 12): 5 minutes in ms. -/
def EXPIRY_BUFFER_MS : Nat := 300000

/-- The OAuth beta flag (src/oauth.rs line 13). -/
def OAUTH_BETA : String := "oauth-2025-04-20"

/-- Model of the internal `OAuthTokenState` (src/oauth.rs lines 82-86);
`expires_at` is unix milliseconds, with 0 the force-refresh sentinel. -/
structure OAuthTokenState where
  access_token : String
  refresh_token : String
  expires_at : Nat
deriving DecidableEq, Repr

/-- The outcome of one refresh HTTP call against the refresh endpoint, as
`get_token`'s slow path distinguishes them: a 2xx response with a parsed
`TokenRefreshResponse`, a transport error from `send()`, a non-2xx status,
or a 2xx body that fails to parse. -/
inductive RefreshResult where
  | ok (access_token : String) (expires_in : Nat) (refresh_token : String)
  | sendError
  | badStatus (code : Nat)
  | badBody
deriving DecidableEq, Repr

/-- Rust's `u64::saturating_sub`: subtraction saturating at zero. -/
def saturating_sub (a b : Nat) : Nat :=
  if a ≤ b then 0 else a - b

/-- The freshness check of `get_token` (src/oauth.rs lines 124, 132):
`now < expires_at.saturating_sub(EXPIRY_BUFFER_MS)`. -/
def tokenFresh (st : OAuthTokenState) (now : Nat) : Bool :=
  now < saturating_sub st.expires_at EXPIRY_BUFFER_MS

/-- The write-locked slow path of `OAuthTokenManager::get_token`
(src/oauth.rs lines 130-185): re-check freshness; if still stale, perform
the refresh network call and on success install the new tokens with
`expires_at = now + expires_in * 1000` (the `on_refresh` callback does not
affect this state).  Returns (result, new state, whether a refresh network
call was made).  The source samples `now_ms()` separately at the re-check
and at the expiry computation; this model uses the caller's single `now`
for both. -/
def slowPath (st : OAuthTokenState) (now : Nat) (refresh : RefreshResult) :
    Except String String × OAuthTokenState × Bool :=
  if tokenFresh st now then (.ok st.access_token, st, false)
  else
    match refresh with
    | .ok access expires_in rt =>
      (.ok access,
        { access_token := access, refresh_token := rt,
          expires_at := now + expires_in * 1000 }, true)
    | .sendError => (.error "Http: request send failed", st, true)
    | .badBody => (.error "OAuth: invalid refresh response", st, true)
    | .badStatus code =>
      if code = 401 ∨ code = 403 then
        (.error "OAuth: refresh token invalid or revoked", st, true)
      else (.error "OAuth: token refresh failed", st, true)

/-- Model of `OAuthTokenManager::get_token` (src/oauth.rs lines 119-185) for
one caller with no interference: the read-locked fast path returns the
cached token when fresh; otherwise the write-locked `slowPath` runs.  The
third component counts the refresh network calls made (0 or 1). -/
def get_token (st : OAuthTokenState) (now : Nat) (refresh : RefreshResult) :
    Except String String × OAuthTokenState × Bool :=
  if tokenFresh st now then (.ok st.access_token, st, false)
  else slowPath st now refresh

/-- Model of `OAuthTokenManager::invalidate` (src/oauth.rs lines 187-190). -/
def invalidate (st : OAuthTokenState) : OAuthTokenState :=
  { st with expires_at := 0 }

/-- One caller in a concurrent `get_token` race.  `snapshotAge` says how
many completed write-locked sections the caller's read-locked fast-path
check observed (the read lock lets it run at any such point); the caller's
slow-path section, if entered, runs against the then-current state in lock
order. -/
structure RaceCaller where
  snapshotAge : Nat
deriving DecidableEq, Repr

/-- The evolving state of a `get_token` race: the current token state, the
history of states after each completed write section (index 0 is the initial
state), the number of refresh network calls, and each caller's result. -/
structure RaceState where
  current : OAuthTokenState
  history : List OAuthTokenState
  refreshes : Nat
  results : List (Except String String)
deriving Repr

/-- One caller executed in the race: its fast-path check runs against its
snapshot; on a fresh snapshot it returns that cached token with no locking,
otherwise its write-locked section (`slowPath`, with the double-check)
runs against the current state. -/
def raceStep (now : Nat) (refresh : RefreshResult) (rs : RaceState)
    (c : RaceCaller) : RaceState :=
  let snap := rs.history.getD c.snapshotAge rs.current
  if tokenFresh snap now then
    { rs with results := rs.results ++ [.ok snap.access_token] }
  else
    let r := slowPath rs.current now refresh
    { current := r.2.1,
      history := rs.history ++ [r.2.1],
      refreshes := rs.refreshes + (if r.2.2 then 1 else 0),
      results := rs.results ++ [r.1] }

/-- N callers racing `get_token` on one shared manager: the RwLock
serializes their write sections in some order, here the list order; their
read-locked fast checks may have observed any earlier state (snapshotAge).
All callers share one clock sample `now` (the race is simultaneous) and the
refresh transport behaves as `refresh`. -/
def runRace (s0 : OAuthTokenState) (now : Nat) (refresh : RefreshResult)
    (callers : List RaceCaller) : RaceState :=
  callers.foldl (raceStep now refresh) ⟨s0, [s0], 0, []⟩

/-! ## OAuth middleware (src/oauth.rs lines 195-295) -/

/-- An outbound request as the middleware sees it: method, URL, headers
(name-value pairs; reqwest lower-cases names), and buffered body bytes
(`None` models a streaming body, whose bytes `as_bytes` cannot capture). -/
structure OAuthRequest where
  method : String
  url : String
  headers : List (String × String)
  body : Option String
deriving DecidableEq, Repr

/-- Remove every value of a header name (`HeaderMap::remove`). -/
def reqHeadersRemove (hs : List (String × String)) (name : String) :
    List (String × String) :=
  hs.filter (fun p => p.1 ≠ name)

/-- Insert a header value, replacing any existing values
(`HeaderMap::insert`). -/
def reqHeadersInsert (hs : List (String × String)) (name v : String) :
    List (String × String) :=
  reqHeadersRemove hs name ++ [(name, v)]

/-- First value of a header name (`HeaderMap::get` plus `to_str`; the values
this middleware reads are ASCII strings it or the client built). -/
def reqHeadersGet (hs : List (String × String)) (name : String) :
    Option String :=
  (hs.find? (fun p => p.1 = name)).map (fun p => p.2)

/-- Model of `apply_oauth_headers` (src/oauth.rs lines 199-238): drop
`x-api-key`, set the bearer `authorization` header and the
browser-access header, and merge `OAUTH_BETA` into the comma-joined
`anthropic-beta` header without duplicating it.  (The
`HeaderValue::from_str` error paths need non-ASCII inputs and are not
modelled.) -/
def apply_oauth_headers (req : OAuthRequest) (token : String) : OAuthRequest :=
  let hs := reqHeadersRemove req.headers "x-api-key"
  let hs := reqHeadersInsert hs "authorization" ("Bearer " ++ token)
  let hs := reqHeadersInsert hs "anthropic-dangerous-direct-browser-access" "true"
  let existing := reqHeadersGet hs "anthropic-beta"
  let new_beta := match existing with
    | none => OAUTH_BETA
    | some s =>
      if (s.splitOn ",").any (fun p => p.trim = OAUTH_BETA) then s
      else s ++ "," ++ OAUTH_BETA
  { req with headers := reqHeadersInsert hs "anthropic-beta" new_beta }

/-- Model of `rebuild_request` (src/oauth.rs lines 240-251): a fresh request
from the captured method, URL, headers, and body bytes. -/
def rebuild_request (method url : String) (headers : List (String × String))
    (body : String) : OAuthRequest :=
  { method := method, url := url, headers := headers, body := some body }

/-- What `OAuthMiddleware::handle` did: the downstream requests it sent in
order, how many times it invalidated the cached token, and how many refresh
network calls its `get_token` calls made. -/
structure HandleTrace where
  sent : List OAuthRequest
  invalidations : Nat
  refreshes : Nat
deriving Repr

/-- Model of `OAuthMiddleware::handle` (src/oauth.rs lines 253-295), split
in two for tractability; this is the 401-recovery branch: invalidate the
cached token, fetch a fresh one, rebuild the original request from the
captured method/URL/headers/body, re-apply the oauth headers and replay
exactly once, returning that second response whatever its status.  `next`
gives the downstream response per call index (its own error path is not
needed by the claims); `oracle` gives each successive refresh call's
outcome. -/
def oauth_handle_on401 (st1 : OAuthTokenState) (now : Nat)
    (oracle : Nat → RefreshResult) (next : Nat → OAuthRequest → HttpResponse)
    (cnt1 : Nat) (req1 : OAuthRequest) (method url : String)
    (headers : List (String × String)) (body_bytes : String) :
    Except String HttpResponse × HandleTrace :=
  let st2 := invalidate st1
  let r2 := get_token st2 now (oracle cnt1)
  let cnt2 := cnt1 + (if r2.2.2 then 1 else 0)
  match r2.1 with
  | .error e => (.error e, ⟨[req1], 1, cnt2⟩)
  | .ok new_token =>
    let rebuilt := rebuild_request method url headers body_bytes
    let req2 := apply_oauth_headers rebuilt new_token
    (.ok (next 1 req2), ⟨[req1, req2], 1, cnt2⟩)

/-- The entry of `OAuthMiddleware::handle`: fetch a token, capture the
original request parts, send the bearer-authorized request, and on a 401
hand over to `oauth_handle_on401`; any other response is returned as-is. -/
def oauth_handle (st0 : OAuthTokenState) (now : Nat)
    (oracle : Nat → RefreshResult) (next : Nat → OAuthRequest → HttpResponse)
    (request : OAuthRequest) : Except String HttpResponse × HandleTrace :=
  let r1 := get_token st0 now (oracle 0)
  let cnt1 := if r1.2.2 then 1 else 0
  match r1.1 with
  | .error e => (.error e, ⟨[], 0, cnt1⟩)
  | .ok token =>
    let method := request.method
    let url := request.url
    let headers := request.headers
    let body_bytes := request.body.getD ""
    let req1 := apply_oauth_headers request token
    let response := next 0 req1
    if response.status = 401 then
      oauth_handle_on401 r1.2.1 now oracle next cnt1 req1 method url headers body_bytes
    else
      (.ok response, ⟨[req1], 0, cnt1⟩)

/-! ## Auxiliary definitions used by the statements below -/

/-- Whether a stream event is the in-band `Error` event. -/
def isErrorEvent : StreamEvent → Bool
  | .error _ => true
  | _ => false

/-- Whether a stream event is a `MessageStart`. -/
def isMessageStart : StreamEvent → Bool
  | .messageStart _ => true
  | _ => false

/-- A concrete usage value for witness instantiations. -/
def sampleUsage : Usage := ⟨10, 0, none, none, none⟩

/-- A concrete message value for witness instantiations. -/
def sampleMessage : Message :=
  ⟨"msg_1".data, "message".data, .assistant, [], "model-x".data, none, none, sampleUsage⟩

/-- A concrete tool-use block for witness instantiations. -/
def sampleToolUse : ToolUseBlock :=
  ⟨"tu_1".data, "get_weather".data, Json.obj [], none⟩

/-- The input-finalization step of `ContentBlockStop`: the buffered string
parsed as JSON, or kept as a raw JSON string on parse failure
(`serde_json::from_str(&json_str).unwrap_or(Value::String(json_str))`). -/
def parsed_or_raw (s : Str) : Json :=
  match json_from_str s with
  | some v => v
  | none => Json.str s

set_option maxRecDepth 10000

/-- Helper: processing one SSE line of the form `data: v` consumes the line
and applies the data field to the accumulator. -/
theorem sse_loop_data_step (v : Str) (rest : List Str) (cur : RawSseEvent) :
    sse_loop (("data: ".data ++ v) :: rest) cur =
      sse_loop rest (sse_apply_field cur "data".data v) := rfl

/-- Helper: a run of `data:` lines followed by a blank line, starting from an
accumulator that already holds `acc` as data (its other fields arbitrary),
dispatches one event whose data is the left fold of newline-appends over the
values. -/
theorem sse_data_block_foldl (vs : List Str) (acc : Str) (ev idf : Option Str)
    (rt : Option Nat) :
    sse_loop (vs.map (fun v => "data: ".data ++ v) ++ [[]]) ⟨ev, some acc, idf, rt⟩ =
      [⟨ev, some (vs.foldl (fun a v => a ++ '\n' :: v) acc), idf, rt⟩] := by
  induction vs generalizing acc with
  | nil =>
    simp [sse_loop, sse_pending, RawSseEvent.empty]
  | cons v vs ih =>
    rw [List.map_cons, List.cons_append, sse_loop_data_step]
    simp only [List.foldl_cons]
    exact ih (acc ++ '\n' :: v)

/-- Helper: the newline-append fold in flattened form. -/
theorem sse_foldl_data_join (vs : List Str) (acc : Str) :
    vs.foldl (fun a v => a ++ '\n' :: v) acc =
      acc ++ (vs.map (fun v => '\n' :: v)).flatten := by
  induction vs generalizing acc with
  | nil => simp
  | cons v vs ih => simp [ih, List.append_assoc]

/-- Helper: joinNl in flattened form. -/
theorem joinNl_cons_eq (v : Str) (rest : List Str) :
    joinNl (v :: rest) = v ++ (rest.map (fun w => '\n' :: w)).flatten := by
  induction rest generalizing v with
  | nil => simp [joinNl]
  | cons w rs ih => simp [joinNl, ih]

/-- C4: decoding the SSE input
"event: a\ndata: 1\n\nevent: b\ndata: 2\n\n" yields exactly the two raw
events {event:"a", data:"1"} then {event:"b", data:"2"}; and an event block
of data lines before a blank line dispatches a single event whose data is
the values joined by newlines in input order. -/
theorem C4_sse_two_events_and_multidata :
    parse_sse_stream "event: a\ndata: 1\n\nevent: b\ndata: 2\n\n".data =
      [⟨some "a".data, some "1".data, none, none⟩,
       ⟨some "b".data, some "2".data, none, none⟩] ∧
    ∀ (ev idf : Option Str) (rt : Option Nat) (vs : List Str), vs ≠ [] →
      sse_loop (vs.map (fun v => "data: ".data ++ v) ++ [[]]) ⟨ev, none, idf, rt⟩ =
        [⟨ev, some (joinNl vs), idf, rt⟩] := by
  constructor
  · decide
  · intro ev idf rt vs hvs
    match vs, hvs with
    | v :: rest, _ =>
      rw [List.map_cons, List.cons_append, sse_loop_data_step,
        show sse_apply_field (⟨ev, none, idf, rt⟩ : RawSseEvent) "data".data v =
          (⟨ev, some v, idf, rt⟩ : RawSseEvent) from rfl,
        sse_data_block_foldl, sse_foldl_data_join, joinNl_cons_eq]

/-- C4 witness: the three-data-line block from the spec's test, preceded by
an event field, through the universally quantified part of the theorem. -/
theorem C4_witness :
    sse_loop (["line1".data, "line2".data, "line3".data].map
        (fun v => "data: ".data ++ v) ++ [[]]) ⟨some "test".data, none, none, none⟩ =
      [⟨some "test".data, some "line1\nline2\nline3".data, none, none⟩] := by
  rw [C4_sse_two_events_and_multidata.2 (some "test".data) none none
    ["line1".data, "line2".data, "line3".data] (by decide)]
  decide

/-- C5 counterexample: an event block that sets only the id field (or only
the retry field) is not dispatched, neither at a blank line nor at end of
stream, although the claim requires a dispatch when any field was set. -/
theorem C5_counterexample_id_retry_only :
    (sse_apply_field RawSseEvent.empty "id".data "7".data).id = some "7".data ∧
    parse_sse_stream "id: 7\n\n".data = [] ∧
    parse_sse_stream "id: 7".data = [] ∧
    (sse_apply_field RawSseEvent.empty "retry".data "100".data).retry = some 100 ∧
    parse_sse_stream "retry: 100\n\n".data = [] := by
  decide

/-- Helper: every event the SSE loop emits has its event or data field set. -/
theorem sse_loop_mem_pending :
    ∀ (lines : List Str) (cur e : RawSseEvent),
      e ∈ sse_loop lines cur → sse_pending e = true := by
  intro lines
  induction lines with
  | nil =>
    intro cur e he
    by_cases h : sse_pending cur
    · simp [sse_loop, h] at he
      subst he
      exact h
    · simp [sse_loop, h] at he
  | cons line rest ih =>
    intro cur e he
    by_cases hb : line = []
    · subst hb
      by_cases h : sse_pending cur
      · simp [sse_loop, h] at he
        rcases he with rfl | he
        · exact h
        · exact ih _ _ he
      · simp [sse_loop, h] at he
        exact ih _ _ he
    · by_cases hc : line.head? = some ':'
      · simp [sse_loop, hb, hc] at he
        exact ih _ _ he
      · simp only [sse_loop, if_neg hb, if_neg hc] at he
        cases hp : parse_field line with
        | none => rw [hp] at he; exact ih _ _ he
        | some fv => rw [hp] at he; exact ih _ _ he

/-- C5 amended: a blank line dispatches the accumulated event exactly when
the event or data field was set since the last dispatch, and end of stream
dispatches a pending event under the same condition; id or retry alone never
trigger a dispatch, and every dispatched event has event or data set. -/
theorem C5_dispatch_requires_event_or_data :
    (∀ (rest : List Str) (cur : RawSseEvent), sse_pending cur = true →
        sse_loop ([] :: rest) cur = cur :: sse_loop rest RawSseEvent.empty) ∧
    (∀ (rest : List Str) (cur : RawSseEvent), sse_pending cur = false →
        sse_loop ([] :: rest) cur = sse_loop rest cur) ∧
    (∀ cur : RawSseEvent, sse_pending cur = true → sse_loop [] cur = [cur]) ∧
    (∀ cur : RawSseEvent, sse_pending cur = false → sse_loop [] cur = []) ∧
    (∀ (lines : List Str) (cur e : RawSseEvent),
        e ∈ sse_loop lines cur → sse_pending e = true) := by
  refine ⟨?_, ?_, ?_, ?_, sse_loop_mem_pending⟩
  · intro rest cur h; simp [sse_loop, h]
  · intro rest cur h; simp [sse_loop, h]
  · intro cur h; simp [sse_loop, h]
  · intro cur h; simp [sse_loop, h]

/-- C5 witness: dispatch and non-dispatch at concrete accumulator states,
through the amended theorem. -/
theorem C5_witness :
    sse_loop [[]] ⟨some "a".data, none, none, none⟩ =
      [⟨some "a".data, none, none, none⟩] ∧
    sse_loop [] (⟨none, none, some "7".data, some 5⟩ : RawSseEvent) = [] := by
  have h := C5_dispatch_requires_event_or_data
  constructor
  · rw [h.1 [] _ (by decide), h.2.2.2.1 _ (by decide)]
  · exact h.2.2.2.1 _ (by decide)

/-- C1: evaluating the embedded delay computation at the failing input.  For
the default policy (500 ms initial delay, 8 s cap) and attempt 62 with no
server hint, the u64 product 500 * 2^62 wraps to 0, so the returned delay is
0 ms (the jitter sample range 0..=capped/4 is then 0..=0), while the claimed
interval [0.75 * min(500 * 2^62, 8000), min(500 * 2^62, 8000)] is
[6000, 8000] and excludes 0. -/
theorem C1_backoff_overflow_at_attempt_62 :
    RetryPolicy.delay_for_attempt RetryPolicy.default 62 none 0 = 0 ∧
    3 * min (RetryPolicy.default.initial_delay * 2 ^ 62) RetryPolicy.default.max_delay / 4 = 6000 := by
  constructor
  · decide
  · norm_num [RetryPolicy.default]

/-- C10: an x-should-retry header that converts to a string not ASCII-case
equal to "true" (for example "yes", "1", or the empty value) makes
check_should_retry_header return some false, which the executor takes as a
final non-retryable verdict for any error status; an absent header, or one
whose bytes fail to_str, falls back to the status-based classification. -/
theorem C10_should_retry_header_override :
    (∀ (hs : Headers) (v : HeaderBytes) (s : Str),
        headersGet hs "x-should-retry" = some v →
        headerValueToStr v = some s →
        check_should_retry_header hs = some (eqIgnoreAsciiCase s "true".data)) ∧
    (∀ (hs : Headers) (v : HeaderBytes),
        headersGet hs "x-should-retry" = some v →
        headerValueToStr v = none →
        check_should_retry_header hs = none) ∧
    (∀ hs : Headers, headersGet hs "x-should-retry" = none →
        check_should_retry_header hs = none) ∧
    (eqIgnoreAsciiCase "yes".data "true".data = false ∧
      eqIgnoreAsciiCase "1".data "true".data = false ∧
      eqIgnoreAsciiCase [] "true".data = false ∧
      eqIgnoreAsciiCase "True".data "true".data = true) ∧
    (∀ (hs : Headers) (status : Nat),
        check_should_retry_header hs = none →
        (check_should_retry_header hs).getD (is_retryable_status status) =
          is_retryable_status status) ∧
    (∀ (responses : Nat → HttpResponse) (max_retries attempt : Nat),
        400 ≤ (responses attempt).status →
        check_should_retry_header (responses attempt).headers = some false →
        execute_raw_go responses max_retries attempt =
          .error ⟨(responses attempt).status, (responses attempt).body⟩) := by
  refine ⟨?_, ?_, ?_, by decide, ?_, ?_⟩
  · intro hs v s hget hstr
    simp [check_should_retry_header, hget, hstr]
  · intro hs v hget hstr
    simp [check_should_retry_header, hget, hstr]
  · intro hs hget
    simp [check_should_retry_header, hget]
  · intro hs status h
    simp [h]
  · intro responses mr a hst hchk
    rw [execute_raw_go]
    simp [hst, hchk]

/-- C10 witness: a 429 response carrying x-should-retry: yes (bytes
[121, 101, 115]) is returned as a terminal API error with no retry,
through the theorem. -/
theorem C10_witness :
    execute_raw_go (fun _ => ⟨429, [("x-should-retry", [121, 101, 115])], "b".data⟩) 2 0 =
      .error ⟨429, "b".data⟩ ∧
    check_should_retry_header [("x-should-retry", [121, 101, 115])] = some false := by
  have h := C10_should_retry_header_override
  refine ⟨h.2.2.2.2.2 (fun _ => ⟨429, [("x-should-retry", [121, 101, 115])], "b".data⟩) 2 0
      (by decide) ?_, ?_⟩
  · have h1 := h.1 [("x-should-retry", [121, 101, 115])] [121, 101, 115] "yes".data
      (by decide) (by decide)
    rw [h1]; decide
  · have h1 := h.1 [("x-should-retry", [121, 101, 115])] [121, 101, 115] "yes".data
      (by decide) (by decide)
    rw [h1]; decide

/-- Helper: on an input without in-band Error events, the accumulator loop
succeeds with the fold of applyEvent. -/
theorem accumulate_loop_eq_foldl (events : List StreamEvent) :
    ∀ st : AccState, (∀ e ∈ events, isErrorEvent e = false) →
      accumulate_loop st events = .ok (events.foldl applyEvent st) := by
  induction events with
  | nil => intro st _; rfl
  | cons e rest ih =>
    intro st h
    have he := h e (List.mem_cons_self _ _)
    cases e <;>
      first
        | exact ih _ (fun x hx => h x (List.mem_cons_of_mem _ hx))
        | simp [isErrorEvent] at he

/-- Helper: events other than MessageStart keep an unset message unset. -/
theorem applyEvent_message_none (st : AccState) (e : StreamEvent)
    (hm : st.message = none) (hs : isMessageStart e = false) :
    (applyEvent st e).message = none := by
  cases e with
  | messageStart m => simp [isMessageStart] at hs
  | contentBlockStart i b => simpa [applyEvent] using hm
  | contentBlockDelta i d =>
    simp only [applyEvent]
    split <;> simpa using hm
  | contentBlockStop i =>
    simp only [applyEvent]
    repeat' split
    all_goals simpa using hm
  | messageDelta d u => simp only [applyEvent, hm]
  | messageStop => simpa [applyEvent] using hm
  | ping => simpa [applyEvent] using hm
  | error err => simpa [applyEvent] using hm

/-- Helper: a fold over events none of which is a MessageStart keeps the
message unset. -/
theorem foldl_message_none (events : List StreamEvent) :
    ∀ st : AccState, st.message = none →
      (∀ e ∈ events, isMessageStart e = false) →
      (events.foldl applyEvent st).message = none := by
  induction events with
  | nil => intro st hm _; simpa using hm
  | cons e rest ih =>
    intro st hm h
    exact ih _ (applyEvent_message_none st e hm (h e (List.mem_cons_self _ _)))
      (fun x hx => h x (List.mem_cons_of_mem _ hx))

/-- Helper: no event clears a set message. -/
theorem applyEvent_message_isSome (st : AccState) (e : StreamEvent)
    (hm : st.message.isSome = true) : (applyEvent st e).message.isSome = true := by
  cases e with
  | messageStart m => simp [applyEvent]
  | contentBlockStart i b => simpa [applyEvent] using hm
  | contentBlockDelta i d =>
    simp only [applyEvent]
    split <;> simpa using hm
  | contentBlockStop i =>
    simp only [applyEvent]
    repeat' split
    all_goals simpa using hm
  | messageDelta d u =>
    rcases hsm : st.message with _ | msg
    · rw [hsm] at hm; simp at hm
    · simp [applyEvent, hsm]
  | messageStop => simpa [applyEvent] using hm
  | ping => simpa [applyEvent] using hm
  | error err => simpa [applyEvent] using hm

/-- Helper: a set message stays set across a fold. -/
theorem foldl_message_isSome (events : List StreamEvent) :
    ∀ st : AccState, st.message.isSome = true →
      (events.foldl applyEvent st).message.isSome = true := by
  induction events with
  | nil => intro st hm; simpa using hm
  | cons e rest ih =>
    intro st hm
    exact ih _ (applyEvent_message_isSome st e hm)

/-- Helper: a fold over events containing a MessageStart ends with a set
message. -/
theorem foldl_exists_start_isSome (events : List StreamEvent) :
    ∀ st : AccState, (∃ e ∈ events, isMessageStart e = true) →
      (events.foldl applyEvent st).message.isSome = true := by
  induction events with
  | nil =>
    rintro st ⟨e, he, _⟩
    simp at he
  | cons e rest ih =>
    rintro st ⟨x, hx, hsx⟩
    rcases List.mem_cons.1 hx with rfl | hx'
    · cases x with
      | messageStart m => exact foldl_message_isSome rest _ (by simp [applyEvent])
      | contentBlockStart i b => simp [isMessageStart] at hsx
      | contentBlockDelta i d => simp [isMessageStart] at hsx
      | contentBlockStop i => simp [isMessageStart] at hsx
      | messageDelta d u => simp [isMessageStart] at hsx
      | messageStop => simp [isMessageStart] at hsx
      | ping => simp [isMessageStart] at hsx
      | error err => simp [isMessageStart] at hsx
    · exact ih _ ⟨x, hx', hsx⟩

/-- C6: when the event stream ends, an input that never carried a
MessageStart makes accumulation fail with the terminal
"Stream ended without a message_start event" error; otherwise the result is
the in-progress message with its content replaced by the final
content_blocks sequence (stated on inputs free of in-band Error events,
which abort earlier by design). -/
theorem C6_stream_end_behavior (events : List StreamEvent)
    (hclean : ∀ e ∈ events, isErrorEvent e = false) :
    ((∀ e ∈ events, isMessageStart e = false) →
        accumulate events = .error "Stream ended without a message_start event".data) ∧
    (∀ msg : Message, (runAcc events).message = some msg →
        accumulate events = .ok { msg with content := (runAcc events).content_blocks }) ∧
    ((∃ e ∈ events, isMessageStart e = true) →
        ∃ msg : Message, (runAcc events).message = some msg) := by
  have hloop := accumulate_loop_eq_foldl events initAccState hclean
  refine ⟨?_, ?_, ?_⟩
  · intro hnone
    have hm : (runAcc events).message = none :=
      foldl_message_none events initAccState rfl hnone
    simp only [accumulate, hloop]
    simp only [runAcc] at hm
    simp [hm]
  · intro msg hmsg
    simp only [accumulate, hloop]
    simp only [runAcc] at hmsg
    simp [hmsg]
    rfl
  · intro hex
    exact Option.isSome_iff_exists.mp (foldl_exists_start_isSome events initAccState hex)

/-- C6 witness: a stream with a MessageStart accumulates to that message
with the final (empty) block list; a stream without one fails terminally —
both through the theorem. -/
theorem C6_witness :
    accumulate [.messageStart sampleMessage, .ping] = .ok sampleMessage ∧
    accumulate [.ping] = .error "Stream ended without a message_start event".data := by
  have hclean2 : ∀ e ∈ [StreamEvent.messageStart sampleMessage, StreamEvent.ping],
      isErrorEvent e = false := by
    intro e he
    simp only [List.mem_cons, List.not_mem_nil, or_false] at he
    rcases he with rfl | rfl <;> rfl
  have hclean1 : ∀ e ∈ [StreamEvent.ping], isErrorEvent e = false := by
    intro e he
    simp only [List.mem_cons, List.not_mem_nil, or_false] at he
    subst he
    rfl
  have hnostart : ∀ e ∈ [StreamEvent.ping], isMessageStart e = false := by
    intro e he
    simp only [List.mem_cons, List.not_mem_nil, or_false] at he
    subst he
    rfl
  constructor
  · exact ((C6_stream_end_behavior _ hclean2).2.1 sampleMessage rfl).trans rfl
  · exact (C6_stream_end_behavior _ hclean1).1 hnostart

/-- Helper: no event shrinks the content-block list. -/
theorem applyEvent_length_le (st : AccState) (e : StreamEvent) :
    st.content_blocks.length ≤ (applyEvent st e).content_blocks.length := by
  cases e with
  | messageStart m => simp [applyEvent]
  | contentBlockStart i b => simp [applyEvent]
  | contentBlockDelta i d =>
    simp only [applyEvent]
    split <;> simp
  | contentBlockStop i =>
    simp only [applyEvent]
    repeat' split
    all_goals simp
  | messageDelta d u =>
    simp only [applyEvent]
    split <;> simp
  | messageStop => simp [applyEvent]
  | ping => simp [applyEvent]
  | error err => simp [applyEvent]

/-- Helper: the content-block list never shrinks across a fold. -/
theorem foldl_length_le (events : List StreamEvent) :
    ∀ st : AccState,
      st.content_blocks.length ≤ (events.foldl applyEvent st).content_blocks.length := by
  induction events with
  | nil => intro st; simp
  | cons e rest ih =>
    intro st
    exact le_trans (applyEvent_length_le st e) (ih (applyEvent st e))

/-- Helper: a ContentBlockStart grows the block list to cover its index. -/
theorem applyEvent_start_length (st : AccState) (i : Nat) (b : ContentBlock) :
    (applyEvent st (.contentBlockStart i b)).content_blocks.length =
      max st.content_blocks.length (i + 1) := by
  simp [applyEvent]
  omega

/-- Helper: every ContentBlockStart index in the input is in bounds of the
folded state's block list. -/
theorem foldl_start_lt (events : List StreamEvent) :
    ∀ (st : AccState) (i : Nat) (b : ContentBlock),
      StreamEvent.contentBlockStart i b ∈ events →
      i < (events.foldl applyEvent st).content_blocks.length := by
  induction events with
  | nil =>
    intro st i b h
    simp at h
  | cons e rest ih =>
    intro st i b h
    rcases List.mem_cons.1 h with rfl | h'
    · have h1 : i < (applyEvent st (.contentBlockStart i b)).content_blocks.length := by
        rw [applyEvent_start_length]; omega
      exact lt_of_lt_of_le h1 (foldl_length_le rest _)
    · exact ih _ i b h'

/-- C7: throughout accumulation the content-block list is strictly longer
than every index seen in a ContentBlockStart so far; and a
ContentBlockStart{index, block} grows the list with empty placeholder text
blocks exactly up to the index, installs the block there, and leaves every
skipped slot holding the empty-text placeholder. -/
theorem C7_content_block_growth_invariant :
    (∀ (events : List StreamEvent) (i : Nat) (b : ContentBlock),
        StreamEvent.contentBlockStart i b ∈ events →
        i < (runAcc events).content_blocks.length) ∧
    (∀ (st : AccState) (i : Nat) (b : ContentBlock),
        (applyEvent st (.contentBlockStart i b)).content_blocks.length =
          max st.content_blocks.length (i + 1) ∧
        (applyEvent st (.contentBlockStart i b)).content_blocks[i]? = some b ∧
        ∀ j : Nat, st.content_blocks.length ≤ j → j < i →
          (applyEvent st (.contentBlockStart i b)).content_blocks[j]? =
            some placeholderBlock) := by
  refine ⟨fun events i b h => foldl_start_lt events initAccState i b h, ?_⟩
  intro st i b
  refine ⟨applyEvent_start_length st i b, ?_, ?_⟩
  · have hlen : i < (st.content_blocks ++
        List.replicate (i + 1 - st.content_blocks.length) placeholderBlock).length := by
      simp
      omega
    simp only [applyEvent]
    rw [List.getElem?_set_self hlen]
  · intro j hj1 hj2
    have hne : i ≠ j := by omega
    simp only [applyEvent]
    rw [List.getElem?_set_ne hne, List.getElem?_append_right hj1]
    have hlt : j - st.content_blocks.length < i + 1 - st.content_blocks.length := by omega
    simp [List.getElem?_replicate_of_lt hlt]

/-- C7 witness: a start at index 2 over a single existing block yields a
placeholder at index 1 and the block at index 2, through the theorem. -/
theorem C7_witness :
    (applyEvent ⟨some sampleMessage, [placeholderBlock], []⟩
        (.contentBlockStart 2 (.toolUse sampleToolUse))).content_blocks.length = 3 ∧
    (applyEvent ⟨some sampleMessage, [placeholderBlock], []⟩
        (.contentBlockStart 2 (.toolUse sampleToolUse))).content_blocks[2]? =
      some (.toolUse sampleToolUse) ∧
    (applyEvent ⟨some sampleMessage, [placeholderBlock], []⟩
        (.contentBlockStart 2 (.toolUse sampleToolUse))).content_blocks[1]? =
      some placeholderBlock := by
  have h := C7_content_block_growth_invariant.2
    ⟨some sampleMessage, [placeholderBlock], []⟩ 2 (.toolUse sampleToolUse)
  exact ⟨h.1.trans (by decide), h.2.1, h.2.2 1 (by decide) (by decide)⟩

/-- C8: at ContentBlockStop{index}, when a partial-JSON buffer exists for
the index and the block there is a tool-use block, the parsed buffer (or,
on parse failure, the raw string) is installed as the block's input and the
buffer is removed; and the spec's two-delta scenario ends with the parsed
object {"location":"SF"} as the tool-use input. -/
theorem C8_tool_use_input_finalize :
    (∀ (st : AccState) (i : Nat) (s : Str) (tu : ToolUseBlock),
        bufsLookup st.json_bufs i = some s →
        st.content_blocks[i]? = some (.toolUse tu) →
        (applyEvent st (.contentBlockStop i)).content_blocks[i]? =
          some (.toolUse { tu with input := parsed_or_raw s }) ∧
        (applyEvent st (.contentBlockStop i)).json_bufs = bufsRemove st.json_bufs i) ∧
    accumulate [.messageStart sampleMessage,
      .contentBlockStart 0 (.toolUse sampleToolUse),
      .contentBlockDelta 0 (.inputJsonDelta "\x7b\"loc".data),
      .contentBlockDelta 0 (.inputJsonDelta "ation\":\"SF\"\x7d".data),
      .contentBlockStop 0] =
      .ok { sampleMessage with content := [.toolUse { sampleToolUse with
              input := Json.obj [("location".data, Json.str "SF".data)] }] } := by
  constructor
  · intro st i s tu hbuf hblk
    rcases List.getElem?_eq_some_iff.1 hblk with ⟨hi, hget⟩
    have hstep : applyEvent st (.contentBlockStop i) =
        { st with
          content_blocks :=
            st.content_blocks.set i (.toolUse { tu with input := parsed_or_raw s }),
          json_bufs := bufsRemove st.json_bufs i } := by
      simp only [applyEvent, hbuf]
      rw [dif_pos hi]
      rw [show st.content_blocks.get ⟨i, hi⟩ = ContentBlock.toolUse tu from by
        simpa [List.get_eq_getElem] using hget]
      rfl
    rw [hstep]
    exact ⟨List.getElem?_set_self hi, rfl⟩
  · rfl

/-- C8 witness: a state holding the fully accumulated buffer for a tool-use
block at index 0 installs the parsed object at its stop event, through the
theorem. -/
theorem C8_witness :
    (applyEvent ⟨some sampleMessage, [.toolUse sampleToolUse],
        [(0, "\x7b\"location\":\"SF\"\x7d".data)]⟩ (.contentBlockStop 0)).content_blocks[0]? =
      some (.toolUse ⟨"tu_1".data, "get_weather".data,
        Json.obj [("location".data, Json.str "SF".data)], none⟩) := by
  have h := (C8_tool_use_input_finalize.1 ⟨some sampleMessage, [.toolUse sampleToolUse],
      [(0, "\x7b\"location\":\"SF\"\x7d".data)]⟩ 0 "\x7b\"location\":\"SF\"\x7d".data sampleToolUse rfl rfl).1
  rw [h]
  rfl

/-- Helper: inserting a field into a JSON object makes it the value found
under that key. -/
theorem objLookup_objInsert_self (fields : List (Str × Json)) (k : Str) (v : Json) :
    objLookup (objInsert fields k v) k = some v := by
  induction fields with
  | nil =>
    simp [objInsert, objLookup]
  | cons p rest ih =>
    by_cases hk : p.1 = k
    · have hins : objInsert (p :: rest) k v =
          (k, v) :: rest.map (fun q => if q.1 = k then (k, v) else q) := by
        simp [objInsert, List.any_cons, hk]
      rw [hins]
      simp [objLookup]
    · have hins : objInsert (p :: rest) k v = p :: objInsert rest k v := by
        simp only [objInsert, List.any_cons, hk, decide_False, Bool.false_or]
        by_cases hr : rest.any (fun q => q.1 = k) = true
        · simp [hr, hk]
        · simp [hr]
      rw [hins]
      have hlk : objLookup (p :: objInsert rest k v) k = objLookup (objInsert rest k v) k := by
        simp only [objLookup]
        rw [List.find?_cons_of_neg _ (by simp [hk])]
      rw [hlk, ih]

/-- Helper: after injecting an unknown discriminator, structural decoding of
the StreamEvent union fails, whatever the data value was. -/
theorem deserialize_unknown_tag (v : Json) (t : Str) (h : t ∉ streamEventTags) :
    ∃ e, deserialize_stream_event (injectType v t) = .error e := by
  simp only [streamEventTags, List.mem_cons, List.not_mem_nil, or_false, not_or] at h
  obtain ⟨h1, h2, h3, h4, h5, h6, h7, h8⟩ := h
  cases v with
  | obj kvs =>
    refine ⟨"unknown variant of StreamEvent".data, ?_⟩
    simp only [injectType, deserialize_stream_event, objLookup_objInsert_self]
    simp [h1, h2, h3, h4, h5, h6, h7, h8]
  | null => exact ⟨_, rfl⟩
  | bool b => exact ⟨_, rfl⟩
  | int n => exact ⟨_, rfl⟩
  | float m x => exact ⟨_, rfl⟩
  | str s => exact ⟨_, rfl⟩
  | arr items => exact ⟨_, rfl⟩

/-- C9: the typed event decoder uses the event field (empty-string default)
as the discriminator, parses the data field (default "{}") as JSON, injects
the discriminator, and structurally decodes into the closed union; a JSON
parse failure or an unknown discriminator is a descriptive decode error for
that event, and known discriminators decode to their variants. -/
theorem C9_typed_event_decode :
    (∀ raw : RawSseEvent, json_from_str (raw.data.getD "\x7b\x7d".data) = none →
        parse_stream_event raw = .error "Failed to parse SSE data as JSON".data) ∧
    (∀ (raw : RawSseEvent) (v : Json),
        json_from_str (raw.data.getD "\x7b\x7d".data) = some v →
        raw.event.getD [] ∉ streamEventTags →
        ∃ e, parse_stream_event raw = .error e) ∧
    parse_stream_event ⟨some "ping".data, none, none, none⟩ = .ok .ping ∧
    parse_stream_event ⟨some "content_block_delta".data,
      some "\x7b\"index\":0,\"delta\":\x7b\"type\":\"text_delta\",\"text\":\"Hello\"\x7d\x7d".data,
      none, none⟩ = .ok (.contentBlockDelta 0 (.textDelta "Hello".data)) := by
  refine ⟨?_, ?_, by rfl, by rfl⟩
  · intro raw hp
    simp [parse_stream_event, hp]
  · intro raw v hp ht
    obtain ⟨e, he⟩ := deserialize_unknown_tag v (raw.event.getD []) ht
    refine ⟨"Failed to deserialize stream event '".data ++ raw.event.getD [] ++
      "': ".data ++ e, ?_⟩
    simp [parse_stream_event, hp, he]

/-- C9 witness: unparseable data errors, and an unknown or defaulted
discriminator errors, through the theorem. -/
theorem C9_witness :
    parse_stream_event ⟨some "ping".data, some "\x7b".data, none, none⟩ =
      .error "Failed to parse SSE data as JSON".data ∧
    (∃ e, parse_stream_event ⟨some "bogus".data, some "\x7b\x7d".data, none, none⟩ = .error e) ∧
    (∃ e, parse_stream_event ⟨none, some "\x7b\x7d".data, none, none⟩ = .error e) := by
  have h := C9_typed_event_decode
  exact ⟨h.1 _ (by rfl),
    h.2.1 _ (Json.obj []) (by rfl) (by decide),
    h.2.1 _ (Json.obj []) (by rfl) (by decide)⟩

/-- Helper: the arithmetic content of `saturating_sub`. -/
theorem saturating_sub_eq (a b : Nat) : saturating_sub a b = a - b := by
  unfold saturating_sub
  split <;> omega

/-- Helper: one-step unfolding of `oauth_handle_on401` with its lets
substituted. -/
theorem oauth_handle_on401_eq (st1 : OAuthTokenState) (now : Nat)
    (oracle : Nat → RefreshResult) (next : Nat → OAuthRequest → HttpResponse)
    (cnt1 : Nat) (req1 : OAuthRequest) (method url : String)
    (headers : List (String × String)) (body_bytes : String) :
    oauth_handle_on401 st1 now oracle next cnt1 req1 method url headers body_bytes =
      match (get_token (invalidate st1) now (oracle cnt1)).1 with
      | .error e => (.error e, ⟨[req1], 1,
          cnt1 + (if (get_token (invalidate st1) now (oracle cnt1)).2.2 then 1 else 0)⟩)
      | .ok new_token =>
        (.ok (next 1 (apply_oauth_headers (rebuild_request method url headers body_bytes) new_token)),
          ⟨[req1, apply_oauth_headers (rebuild_request method url headers body_bytes) new_token],
            1, cnt1 + (if (get_token (invalidate st1) now (oracle cnt1)).2.2 then 1 else 0)⟩) := rfl

/-- Helper: one-step unfolding of `oauth_handle` with its lets substituted. -/
theorem oauth_handle_eq (st0 : OAuthTokenState) (now : Nat)
    (oracle : Nat → RefreshResult) (next : Nat → OAuthRequest → HttpResponse)
    (request : OAuthRequest) :
    oauth_handle st0 now oracle next request =
      match (get_token st0 now (oracle 0)).1 with
      | .error e => (.error e, ⟨[], 0, if (get_token st0 now (oracle 0)).2.2 then 1 else 0⟩)
      | .ok token =>
        if (next 0 (apply_oauth_headers request token)).status = 401 then
          oauth_handle_on401 (get_token st0 now (oracle 0)).2.1 now oracle next
            (if (get_token st0 now (oracle 0)).2.2 then 1 else 0)
            (apply_oauth_headers request token) request.method request.url
            request.headers (request.body.getD "")
        else
          (.ok (next 0 (apply_oauth_headers request token)),
            ⟨[apply_oauth_headers request token], 0,
              if (get_token st0 now (oracle 0)).2.2 then 1 else 0⟩) := rfl

/-- Helper: invalidation forces the next get_token through the refresh
network call, whatever the refresh outcome. -/
theorem get_token_after_invalidate_refreshes (st : OAuthTokenState) (now : Nat)
    (r : RefreshResult) : (get_token (invalidate st) now r).2.2 = true := by
  have hstale : tokenFresh (invalidate st) now = false := by
    simp [tokenFresh, invalidate, saturating_sub_eq]
  simp only [get_token, slowPath, hstale]
  cases r with
  | ok a e rt => simp
  | sendError => simp
  | badStatus c =>
    by_cases h : c = 401 ∨ c = 403 <;> simp [h]
  | badBody => simp

/-- C2: under the bearer-token middleware, a 401 on the first downstream
response triggers exactly one invalidation, one token fetch that performs a
refresh network call, and exactly one replay built from the method, URL,
headers, and body bytes captured before the first attempt with the new
bearer headers applied; the replay's response is returned whatever its
status (a second 401 is surfaced, not retried). -/
theorem C2_oauth_401_single_replay
    (st0 : OAuthTokenState) (now : Nat) (oracle : Nat → RefreshResult)
    (next : Nat → OAuthRequest → HttpResponse) (request : OAuthRequest)
    (tok1 tok2 : String) (st1 st3 : OAuthTokenState) (did1 did2 : Bool)
    (h1 : get_token st0 now (oracle 0) = (.ok tok1, st1, did1))
    (h401 : (next 0 (apply_oauth_headers request tok1)).status = 401)
    (h2 : get_token (invalidate st1) now (oracle (if did1 then 1 else 0)) =
      (.ok tok2, st3, did2)) :
    oauth_handle st0 now oracle next request =
      (.ok (next 1 (apply_oauth_headers (rebuild_request request.method request.url
          request.headers (request.body.getD "")) tok2)),
        ⟨[apply_oauth_headers request tok1,
          apply_oauth_headers (rebuild_request request.method request.url
            request.headers (request.body.getD "")) tok2],
          1, (if did1 then 1 else 0) + 1⟩) ∧
    did2 = true := by
  have hd2 : did2 = true := by
    have hc := congrArg (fun p => p.2.2) h2
    simp only at hc
    rw [← hc, get_token_after_invalidate_refreshes]
  subst hd2
  refine ⟨?_, rfl⟩
  have step1 : oauth_handle st0 now oracle next request =
      oauth_handle_on401 st1 now oracle next (if did1 then 1 else 0)
        (apply_oauth_headers request tok1) request.method request.url
        request.headers (request.body.getD "") := by
    rw [oauth_handle_eq, h1]
    exact if_pos h401
  have step2 : oauth_handle_on401 st1 now oracle next (if did1 then 1 else 0)
      (apply_oauth_headers request tok1) request.method request.url
      request.headers (request.body.getD "") =
      (.ok (next 1 (apply_oauth_headers (rebuild_request request.method request.url
          request.headers (request.body.getD "")) tok2)),
        ⟨[apply_oauth_headers request tok1,
          apply_oauth_headers (rebuild_request request.method request.url
            request.headers (request.body.getD "")) tok2],
          1, (if did1 then 1 else 0) + 1⟩) := by
    rw [oauth_handle_on401_eq, h2]
    rfl
  exact step1.trans step2

/-- C2 witness: a concrete fresh-token manager, a downstream that answers
401 twice, and a buffered POST body, through the theorem. -/
theorem C2_witness :
    oauth_handle ⟨"tokA", "r0", 10 ^ 15⟩ 1000 (fun _ => .ok "newtok" 3600 "r1")
        (fun i _ => if i = 0 then ⟨401, [], []⟩ else ⟨401, [], "e2".data⟩)
        ⟨"POST", "u", [("x-api-key", "k")], some "BODY"⟩ =
      (.ok ⟨401, [], "e2".data⟩,
        ⟨[apply_oauth_headers ⟨"POST", "u", [("x-api-key", "k")], some "BODY"⟩ "tokA",
          apply_oauth_headers (rebuild_request "POST" "u" [("x-api-key", "k")] "BODY") "newtok"],
          1, 1⟩) := by
  have h := C2_oauth_401_single_replay ⟨"tokA", "r0", 10 ^ 15⟩ 1000
    (fun _ => .ok "newtok" 3600 "r1")
    (fun i _ => if i = 0 then ⟨401, [], []⟩ else ⟨401, [], "e2".data⟩)
    ⟨"POST", "u", [("x-api-key", "k")], some "BODY"⟩
    "tokA" "newtok" ⟨"tokA", "r0", 10 ^ 15⟩ ⟨"newtok", "r1", 3601000⟩ false true
    (by rfl) (by rfl) (by rfl)
  exact h.1.trans (by rfl)

/-- Helper: a getD value is either a member of the list or the default. -/
theorem getD_mem_or_default {α : Type} (l : List α) (i : Nat) (d : α) :
    l.getD i d ∈ l ∨ l.getD i d = d := by
  rw [List.getD_eq_getElem?_getD]
  cases h : l[i]? with
  | none => right; rfl
  | some a =>
    left
    simpa using List.getElem?_mem h

/-- Helper: once the race's current state is the freshly refreshed one and
every recorded history state is the stale initial state or the refreshed
one, the remaining callers perform no further refresh and all read the
refreshed token. -/
theorem race_steady (s0 : OAuthTokenState) (now : Nat) (tok : String) (e : Nat)
    (rt : String)
    (hstale : tokenFresh s0 now = false)
    (hfresh : tokenFresh ⟨tok, rt, now + e * 1000⟩ now = true) :
    ∀ (callers : List RaceCaller) (hist : List OAuthTokenState) (n : Nat)
      (res : List (Except String String)),
      (∀ h ∈ hist, h = s0 ∨ h = ⟨tok, rt, now + e * 1000⟩) →
      (callers.foldl (raceStep now (.ok tok e rt))
          ⟨⟨tok, rt, now + e * 1000⟩, hist, n, res⟩).refreshes = n ∧
      (callers.foldl (raceStep now (.ok tok e rt))
          ⟨⟨tok, rt, now + e * 1000⟩, hist, n, res⟩).results =
        res ++ callers.map (fun _ => .ok tok) := by
  intro callers
  induction callers with
  | nil =>
    intro hist n res _
    simp
  | cons c cs ih =>
    intro hist n res hhist
    have hsv : hist.getD c.snapshotAge ⟨tok, rt, now + e * 1000⟩ = s0 ∨
        hist.getD c.snapshotAge ⟨tok, rt, now + e * 1000⟩ = ⟨tok, rt, now + e * 1000⟩ := by
      rcases getD_mem_or_default hist c.snapshotAge ⟨tok, rt, now + e * 1000⟩ with hm | hd
      · exact hhist _ hm
      · right; exact hd
    simp only [List.foldl_cons]
    rcases hsv with h0 | hR
    · have hstep : raceStep now (.ok tok e rt) ⟨⟨tok, rt, now + e * 1000⟩, hist, n, res⟩ c =
          ⟨⟨tok, rt, now + e * 1000⟩, hist ++ [⟨tok, rt, now + e * 1000⟩], n,
            res ++ [.ok tok]⟩ := by
        simp only [raceStep]
        rw [h0]
        simp [hstale, slowPath, hfresh]
      rw [hstep]
      have hinv : ∀ h ∈ hist ++ [(⟨tok, rt, now + e * 1000⟩ : OAuthTokenState)],
          h = s0 ∨ h = ⟨tok, rt, now + e * 1000⟩ := by
        intro h hm
        rcases List.mem_append.1 hm with h1 | h1
        · exact hhist _ h1
        · right; simpa using h1
      have hres := ih (hist ++ [⟨tok, rt, now + e * 1000⟩]) n (res ++ [.ok tok]) hinv
      refine ⟨hres.1, ?_⟩
      rw [hres.2]
      simp
    · have hstep : raceStep now (.ok tok e rt) ⟨⟨tok, rt, now + e * 1000⟩, hist, n, res⟩ c =
          ⟨⟨tok, rt, now + e * 1000⟩, hist, n, res ++ [.ok tok]⟩ := by
        simp only [raceStep]
        rw [hR]
        simp [hfresh]
      rw [hstep]
      have hres := ih hist n (res ++ [.ok tok]) hhist
      refine ⟨hres.1, ?_⟩
      rw [hres.2]
      simp

/-- C3: any number of callers racing get_token against an already-expired
token, under any lock order and any read-snapshot placement, performs at
most one refresh network call (exactly one when there is at least one
caller), and every caller receives the refreshed access token — given that
the refresh transport answers successfully with a lifetime exceeding the
expiry buffer. -/
theorem C3_get_token_single_flight (s0 : OAuthTokenState) (now : Nat)
    (tok : String) (e : Nat) (rt : String) (callers : List RaceCaller)
    (hstale : tokenFresh s0 now = false)
    (hlife : EXPIRY_BUFFER_MS < e * 1000) :
    (runRace s0 now (.ok tok e rt) callers).refreshes ≤ 1 ∧
    (runRace s0 now (.ok tok e rt) callers).refreshes =
      (if callers.isEmpty then 0 else 1) ∧
    (runRace s0 now (.ok tok e rt) callers).results =
      callers.map (fun _ => .ok tok) := by
  have hfresh : tokenFresh ⟨tok, rt, now + e * 1000⟩ now = true := by
    simp only [tokenFresh, saturating_sub_eq, EXPIRY_BUFFER_MS] at *
    simp only [decide_eq_true_eq]
    omega
  cases callers with
  | nil =>
    refine ⟨by simp [runRace], by simp [runRace], by simp [runRace]⟩
  | cons c cs =>
    have hsnap : ([s0] : List OAuthTokenState).getD c.snapshotAge s0 = s0 := by
      rcases getD_mem_or_default [s0] c.snapshotAge s0 with hm | hd
      · simp only [List.mem_singleton] at hm
        exact hm
      · exact hd
    have hstep : raceStep now (.ok tok e rt) ⟨s0, [s0], 0, []⟩ c =
        ⟨⟨tok, rt, now + e * 1000⟩, [s0, ⟨tok, rt, now + e * 1000⟩], 1, [.ok tok]⟩ := by
      simp only [raceStep]
      rw [hsnap]
      simp [hstale, slowPath]
    have hinv : ∀ h ∈ [s0, (⟨tok, rt, now + e * 1000⟩ : OAuthTokenState)],
        h = s0 ∨ h = ⟨tok, rt, now + e * 1000⟩ := by
      intro h hm
      simp only [List.mem_cons, List.not_mem_nil, or_false] at hm
      rcases hm with rfl | rfl
      · left; rfl
      · right; rfl
    have hrun : runRace s0 now (.ok tok e rt) (c :: cs) =
        cs.foldl (raceStep now (.ok tok e rt))
          ⟨⟨tok, rt, now + e * 1000⟩, [s0, ⟨tok, rt, now + e * 1000⟩], 1, [.ok tok]⟩ := by
      simp only [runRace, List.foldl_cons, hstep]
    have h := race_steady s0 now tok e rt hstale hfresh cs
      [s0, ⟨tok, rt, now + e * 1000⟩] 1 [.ok tok] hinv
    rw [hrun]
    refine ⟨by rw [h.1], by simp [h.1], ?_⟩
    rw [h.2]
    simp

/-- C3 witness: four callers with assorted read snapshots against an
expired token and a one-hour refresh, through the theorem. -/
theorem C3_witness :
    (runRace ⟨"old", "r0", 0⟩ 1000 (.ok "newtok" 3600 "r1")
        [⟨0⟩, ⟨0⟩, ⟨1⟩, ⟨7⟩]).refreshes = 1 ∧
    (runRace ⟨"old", "r0", 0⟩ 1000 (.ok "newtok" 3600 "r1")
        [⟨0⟩, ⟨0⟩, ⟨1⟩, ⟨7⟩]).results =
      [.ok "newtok", .ok "newtok", .ok "newtok", .ok "newtok"] := by
  have h := C3_get_token_single_flight ⟨"old", "r0", 0⟩ 1000 "newtok" 3600 "r1"
    [⟨0⟩, ⟨0⟩, ⟨1⟩, ⟨7⟩] (by decide) (by decide)
  exact ⟨h.2.1.trans (by rfl), h.2.2.trans (by rfl)⟩
